import Mathlib

/-!
# Verification of the Game Boy core of emulato-rs

Shallow embedding of the Game Boy subsystem (timer, cartridge memory
controllers, memory bus, CPU, PPU object compositing) of the emulator,
translated from the Rust sources in `src/game_boy/`.  Machine integers
are modelled as `Nat` with explicit reduction modulo `2^8` / `2^16`
(the wrapping semantics of the release profile); operations whose Rust
code can panic (`panic!`, `unimplemented!`, `unreachable!`, fallible
indexing) are modelled as `Option`-returning functions where `none`
marks the abort.
-/

set_option maxRecDepth 100000

namespace GB

/-- Wrap to 8 bits (u8 value semantics). -/
def u8 (x : Nat) : Nat := x % 256

/-- Wrap to 16 bits (u16 value semantics). -/
def u16 (x : Nat) : Nat := x % 65536

/-- `u8::overflowing_sub`: wrapped difference of two bytes. -/
def u8sub (a b : Nat) : Nat := (a + 256 - b % 256) % 256

/-- Wrapping subtraction on 16-bit values (Rust `u16` `-` in the
release profile). -/
def u16sub (a b : Nat) : Nat := (a + 65536 - b % 65536) % 65536

/-! ## Timer (`src/game_boy/timer.rs`) -/

/-- The hardware timer state, from `struct Timer` in `timer.rs`. -/
structure Timer where
  clock : Nat
  timerCounter : Nat
  timerTrigger : Nat
  timerTriggerBit : Bool
  timerOverflowScheduled : Bool
  timer : Nat
  modulo : Nat
  control : Nat
  stopped : Bool
deriving Repr, DecidableEq

namespace Timer

/-- `Timer::default`. -/
def default : Timer where
  clock := 0
  timerCounter := 0
  timerTrigger := 1 <<< 9
  timerTriggerBit := false
  timerOverflowScheduled := false
  timer := 0
  modulo := 0
  control := 0xF8
  stopped := false

/-- `Timer::is_timer_enabled`. -/
def isTimerEnabled (t : Timer) : Bool := t.control &&& 0x4 != 0

/-- `Timer::get_timer_trigger_bit` (the `_ => unreachable!()` arm cannot
trigger because the scrutinee is masked with 3). -/
def getTimerTriggerBit (t : Timer) : Nat :=
  match t.control &&& 0x3 with
  | 0 => 1 <<< 9
  | 1 => 1 <<< 3
  | 2 => 1 <<< 5
  | _ => 1 <<< 7

/-- `Timer::update_timer`: falling-edge detection on the selected clock
bit; returns whether a Timer interrupt is requested, and the new state. -/
def updateTimer (t : Timer) : Bool × Timer :=
  let newTimerTriggerBit :=
    t.isTimerEnabled && decide ((t.clock &&& t.timerTrigger) ≠ 0)
  if t.timerTriggerBit && !newTimerTriggerBit then
    let newTimer := u8 (t.timer + 1)
    let overflow := decide (256 ≤ t.timer + 1)
    let interrupt := t.timerOverflowScheduled
    let timerVal := if t.timerOverflowScheduled then t.modulo else newTimer
    (interrupt,
     { t with timer := timerVal
              timerOverflowScheduled := overflow
              timerTriggerBit := newTimerTriggerBit })
  else if t.timerOverflowScheduled then
    (true,
     { t with timer := t.modulo
              timerOverflowScheduled := false
              timerTriggerBit := newTimerTriggerBit })
  else
    (false, { t with timerTriggerBit := newTimerTriggerBit })

/-- Loop body of `Timer::step`, iterated once per M-cycle (4 T-cycles). -/
def stepLoop (t : Timer) (n : Nat) (interrupt : Bool) : Bool × Timer :=
  match n with
  | 0 => (interrupt, t)
  | n + 1 =>
    let t1 := { t with clock := u16 (t.clock + 4) }
    let (i, t2) := t1.updateTimer
    stepLoop t2 n (interrupt || i)

/-- `Timer::step` (always invoked with a multiple of 4 T-cycles). -/
def step (t : Timer) (cycles : Nat) : Bool × Timer :=
  if t.stopped then (false, t) else stepLoop t (cycles / 4) false

/-- `Timer::get_divider`. -/
def getDivider (t : Timer) : Nat := t.clock >>> 8

/-- `Timer::reset_divider`. -/
def resetDivider (t : Timer) : Bool × Timer :=
  updateTimer { t with clock := 0, timerCounter := 0 }

/-- `Timer::get_timer`. -/
def getTimer (t : Timer) : Nat := t.timer

/-- `Timer::set_timer`: stores the written value, then runs
`update_timer` (which, during a pending overflow cycle, immediately
reloads TIMA from TMA and reports the interrupt). -/
def setTimer (t : Timer) (value : Nat) : Bool × Timer :=
  updateTimer { t with timer := value }

/-- `Timer::get_modulo`. -/
def getModulo (t : Timer) : Nat := t.modulo

/-- `Timer::set_modulo`. -/
def setModulo (t : Timer) (value : Nat) : Timer :=
  { t with modulo := value }

/-- `Timer::get_control`. -/
def getControl (t : Timer) : Nat := t.control

/-- `Timer::set_control`. -/
def setControl (t : Timer) (value : Nat) : Bool × Timer :=
  let t1 := { t with control := value ||| 0xF8 }
  let t2 := { t1 with timerTrigger := t1.getTimerTriggerBit }
  t2.updateTimer

end Timer

/-! ## Cartridge header (`src/game_boy/cartridge.rs`) -/

/-- A cartridge ROM image, as a list of bytes.  Rust slice indexing
panics out of range; the header accessors below use `getD` and are only
used under a hypothesis that the ROM holds the full header. -/
def headerByte (rom : List Nat) (i : Nat) : Nat := rom.getD i 0

/-- The checksummed header slice `rom[0x0134..=0x014C]` (25 bytes). -/
def headerChecksumBytes (rom : List Nat) : List Nat :=
  (rom.drop 0x134).take 25

/-- The loop of `CartridgeHeader::is_header_checksum_correct`:
`x := 0; for b in bytes { x = x - b - 1 }` in wrapping u8 arithmetic. -/
def checksumFold (bytes : List Nat) : Nat :=
  bytes.foldl (fun x y => u8sub (u8sub x y) 1) 0

/-- `CartridgeHeader::header_checksum` (byte at 0x014D). -/
def headerChecksum (rom : List Nat) : Nat := headerByte rom 0x14D

/-- `CartridgeHeader::is_header_checksum_correct`. -/
def isHeaderChecksumCorrect (rom : List Nat) : Bool :=
  headerChecksum rom == checksumFold (headerChecksumBytes rom)

/-- `CartridgeHeader::num_rom_banks`: `2u16 << rom[0x0148]` with the
release-profile `u16` shift semantics: the shift amount is masked to
4 bits and the result truncated to 16 bits, so ROM-size code 0x0F
yields 0 declared banks. -/
def numRomBanksOfHeader (rom : List Nat) : Nat :=
  (2 <<< (headerByte rom 0x148 % 16)) % 65536

/-- `CartridgeHeader::num_ram_banks` (unknown codes `unimplemented!`). -/
def numRamBanksOfHeader (rom : List Nat) : Option Nat :=
  match headerByte rom 0x149 with
  | 0x00 => some 0
  | 0x02 => some 1
  | 0x03 => some 4
  | 0x04 => some 16
  | 0x05 => some 8
  | _ => none

/-- The 48-byte Nintendo logo, `const LOGO` in `cartridge.rs`. -/
def LOGO : List Nat :=
  [0xCE, 0xED, 0x66, 0x66, 0xCC, 0x0D, 0x00, 0x0B,
   0x03, 0x73, 0x00, 0x83, 0x00, 0x0C, 0x00, 0x0D,
   0x00, 0x08, 0x11, 0x1F, 0x88, 0x89, 0x00, 0x0E,
   0xDC, 0xCC, 0x6E, 0xE6, 0xDD, 0xDD, 0xD9, 0x99,
   0xBB, 0xBB, 0x67, 0x63, 0x6E, 0x0E, 0xEC, 0xCC,
   0xDD, 0xDC, 0x99, 0x9F, 0xBB, 0xB9, 0x33, 0x3E]

/-- `CartridgeHeader::is_logo_correct`. -/
def isLogoCorrect (rom : List Nat) : Bool :=
  (rom.drop 0x104).take 0x30 == LOGO

/-! ## Memory bank controllers (`src/game_boy/cartridge.rs`)

Controller-register writes that the Rust code turns into a `panic!`,
`unreachable!` or `unimplemented!` are modelled as `none`. -/

/-- `struct MBC1` (banking mode: 0 = Simple, 1 = Advanced). -/
structure MBC1 where
  rom0Bank : Nat
  romBank : Nat
  ramBank : Nat
  numRomBanks : Nat
  numRamBanks : Nat
  bankingMode : Nat
  ramEnabled : Bool
  isMultiCart : Bool
deriving Repr, DecidableEq

namespace MBC1

/-- `MBC1::from_cartridge_rom` (more than 128 ROM banks is
`unimplemented!`). -/
def fromCartridgeRom (rom : List Nat) : Option MBC1 :=
  let numRomBanks := numRomBanksOfHeader rom
  (numRamBanksOfHeader rom).bind fun numRamBanks =>
  if 128 < numRomBanks then none
  else
    let isMultiCart :=
      if 0x11 * 0x4000 ≤ rom.length then
        isLogoCorrect (rom.drop (0x10 * 0x4000))
      else false
    some { rom0Bank := 0, romBank := 1, ramBank := 0, numRomBanks,
           numRamBanks, bankingMode := 0, ramEnabled := false, isMultiCart }

/-- `MBC1::register_write8`; the banking-mode arm panics for values
other than 0 and 1 (`MBC1BankingMode::from`). -/
def registerWrite8 (m : MBC1) (address value : Nat) : Option MBC1 :=
  if address ≤ 0x1FFF then
    some { m with ramEnabled := value &&& 0x0F == 0x0A }
  else if address ≤ 0x3FFF then
    let bank := value &&& 0x1F
    let bank := if bank = 0 then bank + 1 else bank
    let mask := u8 (u16sub m.numRomBanks 1)
    some { m with romBank := (m.romBank &&& 0xE0) ||| (bank &&& mask) }
  else if address ≤ 0x5FFF then
    let value := value &&& 0x03
    let numRomBits := if m.isMultiCart then 4 else 5
    let romBankMask := if m.isMultiCart then 0x0F else 0x1F
    if m.bankingMode = 0 then
      let mask := u8 (u16sub m.numRomBanks 1)
      some { m with romBank := (m.romBank &&& romBankMask)
                              ||| ((value <<< numRomBits) &&& mask) }
    else
      if 1 < m.numRamBanks then
        let mask := u8sub m.numRamBanks 1
        some { m with ramBank := value &&& mask }
      else if 64 ≤ m.numRomBanks then
        let mask := u8 (u16sub m.numRomBanks 1)
        let newBank := (value <<< numRomBits) &&& mask
        some { m with romBank := (m.romBank &&& romBankMask) ||| newBank,
                      rom0Bank := newBank }
      else
        some m
  else if address ≤ 0x7FFF then
    if value = 0 then some { m with bankingMode := 0, rom0Bank := 0 }
    else if value = 1 then some { m with bankingMode := 1 }
    else none
  else none

/-- Fold `register_write8` over a list of `(address, value)` writes. -/
def applyWrites (m : MBC1) (ws : List (Nat × Nat)) : Option MBC1 :=
  ws.foldlM (fun s w => registerWrite8 s w.1 w.2) m

end MBC1

/-- `struct MBC2`. -/
structure MBC2 where
  romBank : Nat
  numRomBanks : Nat
  ramEnabled : Bool
deriving Repr, DecidableEq

namespace MBC2

/-- `MBC2::from_cartridge_header` (`assert_eq!(num_ram_banks, 0)` and
more than 16 ROM banks abort). -/
def fromCartridgeHeader (rom : List Nat) : Option MBC2 :=
  (numRamBanksOfHeader rom).bind fun numRamBanks =>
  if numRamBanks ≠ 0 then none
  else if 16 < numRomBanksOfHeader rom then none
  else some { romBank := 1, numRomBanks := numRomBanksOfHeader rom,
              ramEnabled := false }

/-- `MBC2::register_write8`. -/
def registerWrite8 (m : MBC2) (address value : Nat) : Option MBC2 :=
  if address ≤ 0x3FFF then
    if address &&& (1 <<< 8) = 0 then
      some { m with ramEnabled := value &&& 0x0F == 0x0A }
    else
      let bank := value &&& 0x0F
      let bank := if bank = 0 then bank + 1 else bank
      let mask := u8 (u16sub m.numRomBanks 1)
      some { m with romBank := bank &&& mask }
  else if address ≤ 0x7FFF then
    some m
  else none

/-- Fold `register_write8` over a list of `(address, value)` writes. -/
def applyWrites (m : MBC2) (ws : List (Nat × Nat)) : Option MBC2 :=
  ws.foldlM (fun s w => registerWrite8 s w.1 w.2) m

end MBC2

/-- `struct MBC3`. -/
structure MBC3 where
  romBank : Nat
  ramBank : Nat
  numRomBanks : Nat
  numRamBanks : Nat
  ramEnabled : Bool
deriving Repr, DecidableEq

namespace MBC3

/-- `MBC3::from_cartridge_header`. -/
def fromCartridgeHeader (rom : List Nat) : Option MBC3 :=
  (numRamBanksOfHeader rom).map fun numRamBanks =>
    { romBank := 1, ramBank := 0, numRomBanks := numRomBanksOfHeader rom,
      numRamBanks, ramEnabled := false }

/-- `MBC3::register_write8`; RAM-bank select stores the raw value 0–3
without clamping it to the header RAM-bank count; values 0x08–0x0C are
`unimplemented!` (RTC), others panic, and the latch range is
`unimplemented!`. -/
def registerWrite8 (m : MBC3) (address value : Nat) : Option MBC3 :=
  if address ≤ 0x1FFF then
    some { m with ramEnabled := value &&& 0x0F == 0x0A }
  else if address ≤ 0x3FFF then
    let bank := value &&& 0x7F
    let bank := if bank = 0 then bank + 1 else bank
    let mask := u8 (u16sub m.numRomBanks 1)
    some { m with romBank := bank &&& mask }
  else if address ≤ 0x5FFF then
    if value ≤ 0x03 then some { m with ramBank := value }
    else none
  else none

/-- Fold `register_write8` over a list of `(address, value)` writes. -/
def applyWrites (m : MBC3) (ws : List (Nat × Nat)) : Option MBC3 :=
  ws.foldlM (fun s w => registerWrite8 s w.1 w.2) m

end MBC3

/-- `struct MBC5`. -/
structure MBC5 where
  romBank : Nat
  ramBank : Nat
  numRomBanks : Nat
  numRamBanks : Nat
  ramEnabled : Bool
deriving Repr, DecidableEq

namespace MBC5

/-- `MBC5::from_cartridge_header`. -/
def fromCartridgeHeader (rom : List Nat) : Option MBC5 :=
  (numRamBanksOfHeader rom).map fun numRamBanks =>
    { romBank := 1, ramBank := 0, numRomBanks := numRomBanksOfHeader rom,
      numRamBanks, ramEnabled := false }

/-- `MBC5::register_write8`; the RAM-bank select stores `value & 0xF`
without clamping it to the header RAM-bank count; writes at
0x6000–0x7FFF hit the `unreachable!` arm. -/
def registerWrite8 (m : MBC5) (address value : Nat) : Option MBC5 :=
  if address ≤ 0x1FFF then
    some { m with ramEnabled := value &&& 0x0F == 0x0A }
  else if address ≤ 0x2FFF then
    let mask := u16sub m.numRomBanks 1
    some { m with romBank := (m.romBank &&& 0xFF00) ||| (value &&& mask) }
  else if address ≤ 0x3FFF then
    let mask := u16sub m.numRomBanks 1
    some { m with romBank := (m.romBank &&& 0xFF)
                            ||| (((value &&& 1) <<< 8) &&& mask) }
  else if address ≤ 0x5FFF then
    some { m with ramBank := value &&& 0xF }
  else none

/-- Fold `register_write8` over a list of `(address, value)` writes. -/
def applyWrites (m : MBC5) (ws : List (Nat × Nat)) : Option MBC5 :=
  ws.foldlM (fun s w => registerWrite8 s w.1 w.2) m

end MBC5

/-! ## Arithmetic toolkit -/

theorem u8_pred_pow_lt (k : Nat) : u8 (2 ^ k - 1) < 2 ^ k := by
  unfold u8
  rcases le_or_lt (2 ^ k) 256 with h | h
  · rw [Nat.mod_eq_of_lt (by omega)]
    exact Nat.sub_lt (Nat.two_pow_pos k) one_pos
  · exact lt_of_lt_of_le (Nat.mod_lt _ (by omega)) (by omega)

theorem and_u8mask_lt (x k : Nat) : x &&& u8 (2 ^ k - 1) < 2 ^ k :=
  lt_of_le_of_lt Nat.and_le_right (u8_pred_pow_lt k)

theorem and_mask_lt (x k : Nat) : x &&& (2 ^ k - 1) < 2 ^ k :=
  lt_of_le_of_lt Nat.and_le_right
    (Nat.sub_lt (Nat.two_pow_pos k) one_pos)

theorem and_left_lt {x k : Nat} (c : Nat) (h : x < 2 ^ k) :
    x &&& c < 2 ^ k :=
  lt_of_le_of_lt Nat.and_le_left h

theorem u16sub_pow_pred {k : Nat} (hk : k ≤ 16) :
    u16sub (2 ^ k) 1 = 2 ^ k - 1 := by
  unfold u16sub
  have h1 : 2 ^ k ≤ 2 ^ 16 := Nat.pow_le_pow_right (by omega) hk
  have h0 : 1 ≤ 2 ^ k := Nat.one_le_two_pow
  have h2 : (2 : Nat) ^ 16 = 65536 := by norm_num
  omega

theorem u8sub_pow_pred {j : Nat} (hj : j ≤ 8) :
    u8sub (2 ^ j) 1 = 2 ^ j - 1 := by
  unfold u8sub
  have h1 : 2 ^ j ≤ 2 ^ 8 := Nat.pow_le_pow_right (by omega) hj
  have h0 : 1 ≤ 2 ^ j := Nat.one_le_two_pow
  have h2 : (2 : Nat) ^ 8 = 256 := by norm_num
  omega

/-! ## Bank invariants -/

/-- The MBC1 state shape guaranteed by `MBC1::from_cartridge_rom`:
bank counts are the powers of two declared by the header, and all
selected banks are in range. -/
def MBC1.Good (m : MBC1) : Prop :=
  (∃ k, 1 ≤ k ∧ k ≤ 16 ∧ m.numRomBanks = 2 ^ k) ∧
  (m.numRamBanks = 0 ∨ ∃ j, j ≤ 8 ∧ m.numRamBanks = 2 ^ j) ∧
  m.romBank < m.numRomBanks ∧ m.rom0Bank < m.numRomBanks ∧
  (m.ramBank = 0 ∨ m.ramBank < m.numRamBanks)

theorem MBC1.registerWrite8_good {m m' : MBC1} {a v : Nat}
    (hg : m.Good) (hw : m.registerWrite8 a v = some m') : m'.Good := by
  obtain ⟨⟨k, hk, hk16, hrom⟩, hramPow, h1, h2, h3⟩ := hg
  simp only [registerWrite8] at hw
  split_ifs at hw <;>
    simp only [Option.some.injEq] at hw <;> subst hw <;>
    refine ⟨⟨k, hk, hk16, hrom⟩, hramPow, ?_, ?_, ?_⟩ <;>
    simp only [hrom] at h1 h2 ⊢
  all_goals first
    | exact h1
    | exact h2
    | exact h3
    | exact Nat.two_pow_pos k
    | (rw [u16sub_pow_pred hk16]
       exact Nat.or_lt_two_pow (and_left_lt _ h1) (and_u8mask_lt _ k))
    | (rw [u16sub_pow_pred hk16]
       exact and_u8mask_lt _ k)
    | (rcases hramPow with h0 | ⟨j, hj8, hj⟩
       · omega
       · right
         rw [hj, u8sub_pow_pred hj8]
         exact and_mask_lt _ j)

theorem MBC1.applyWrites_good {m m' : MBC1} {ws : List (Nat × Nat)}
    (hg : m.Good) (hw : m.applyWrites ws = some m') : m'.Good := by
  induction ws generalizing m with
  | nil =>
    simp only [applyWrites, List.foldlM_nil, Option.pure_def,
               Option.some.injEq] at hw
    exact hw ▸ hg
  | cons w ws ih =>
    simp only [applyWrites, List.foldlM_cons] at hw
    cases hstep : m.registerWrite8 w.1 w.2 with
    | none => rw [hstep] at hw; exact absurd hw (by simp)
    | some m1 =>
      rw [hstep] at hw
      exact ih (m.registerWrite8_good hg hstep) hw

/-- The MBC2 state shape guaranteed by `MBC2::from_cartridge_header`. -/
def MBC2.Good (m : MBC2) : Prop :=
  (∃ k, 1 ≤ k ∧ k ≤ 16 ∧ m.numRomBanks = 2 ^ k) ∧ m.romBank < m.numRomBanks

theorem MBC2.registerWrite8_good2 {m m' : MBC2} {a v : Nat}
    (hg : m.Good) (hw : m.registerWrite8 a v = some m') : m'.Good := by
  obtain ⟨⟨k, hk, hk16, hrom⟩, h1⟩ := hg
  simp only [registerWrite8] at hw
  split_ifs at hw <;>
    simp only [Option.some.injEq] at hw <;> subst hw <;>
    refine ⟨⟨k, hk, hk16, hrom⟩, ?_⟩ <;> simp only [hrom] at h1 ⊢
  all_goals first
    | exact h1
    | (rw [u16sub_pow_pred hk16]
       exact and_u8mask_lt _ k)

theorem MBC2.applyWrites_good2 {m m' : MBC2} {ws : List (Nat × Nat)}
    (hg : m.Good) (hw : m.applyWrites ws = some m') : m'.Good := by
  induction ws generalizing m with
  | nil =>
    simp only [applyWrites, List.foldlM_nil, Option.pure_def,
               Option.some.injEq] at hw
    exact hw ▸ hg
  | cons w ws ih =>
    simp only [applyWrites, List.foldlM_cons] at hw
    cases hstep : m.registerWrite8 w.1 w.2 with
    | none => rw [hstep] at hw; exact absurd hw (by simp)
    | some m1 =>
      rw [hstep] at hw
      exact ih (m.registerWrite8_good2 hg hstep) hw

/-- The MBC3 ROM-bank invariant (the RAM bank is *not* kept below the
header count by `MBC3::register_write8`). -/
def MBC3.Good (m : MBC3) : Prop :=
  (∃ k, 1 ≤ k ∧ k ≤ 16 ∧ m.numRomBanks = 2 ^ k) ∧ m.romBank < m.numRomBanks

theorem MBC3.registerWrite8_good3 {m m' : MBC3} {a v : Nat}
    (hg : m.Good) (hw : m.registerWrite8 a v = some m') : m'.Good := by
  obtain ⟨⟨k, hk, hk16, hrom⟩, h1⟩ := hg
  simp only [registerWrite8] at hw
  split_ifs at hw <;>
    simp only [Option.some.injEq] at hw <;> subst hw <;>
    refine ⟨⟨k, hk, hk16, hrom⟩, ?_⟩ <;> simp only [hrom] at h1 ⊢
  all_goals first
    | exact h1
    | (rw [u16sub_pow_pred hk16]
       exact and_u8mask_lt _ k)

theorem MBC3.applyWrites_good3 {m m' : MBC3} {ws : List (Nat × Nat)}
    (hg : m.Good) (hw : m.applyWrites ws = some m') : m'.Good := by
  induction ws generalizing m with
  | nil =>
    simp only [applyWrites, List.foldlM_nil, Option.pure_def,
               Option.some.injEq] at hw
    exact hw ▸ hg
  | cons w ws ih =>
    simp only [applyWrites, List.foldlM_cons] at hw
    cases hstep : m.registerWrite8 w.1 w.2 with
    | none => rw [hstep] at hw; exact absurd hw (by simp)
    | some m1 =>
      rw [hstep] at hw
      exact ih (m.registerWrite8_good3 hg hstep) hw

/-- The MBC5 ROM-bank invariant (the RAM bank is *not* kept below the
header count by `MBC5::register_write8`). -/
def MBC5.Good (m : MBC5) : Prop :=
  (∃ k, 1 ≤ k ∧ k ≤ 16 ∧ m.numRomBanks = 2 ^ k) ∧ m.romBank < m.numRomBanks

theorem MBC5.registerWrite8_good5 {m m' : MBC5} {a v : Nat}
    (hg : m.Good) (hw : m.registerWrite8 a v = some m') : m'.Good := by
  obtain ⟨⟨k, hk, hk16, hrom⟩, h1⟩ := hg
  simp only [registerWrite8] at hw
  split_ifs at hw <;>
    simp only [Option.some.injEq] at hw <;> subst hw <;>
    refine ⟨⟨k, hk, hk16, hrom⟩, ?_⟩ <;> simp only [hrom] at h1 ⊢
  all_goals first
    | exact h1
    | (rw [u16sub_pow_pred hk16]
       exact Nat.or_lt_two_pow (and_left_lt _ h1) (and_mask_lt _ k))

theorem MBC5.applyWrites_good5 {m m' : MBC5} {ws : List (Nat × Nat)}
    (hg : m.Good) (hw : m.applyWrites ws = some m') : m'.Good := by
  induction ws generalizing m with
  | nil =>
    simp only [applyWrites, List.foldlM_nil, Option.pure_def,
               Option.some.injEq] at hw
    exact hw ▸ hg
  | cons w ws ih =>
    simp only [applyWrites, List.foldlM_cons] at hw
    cases hstep : m.registerWrite8 w.1 w.2 with
    | none => rw [hstep] at hw; exact absurd hw (by simp)
    | some m1 =>
      rw [hstep] at hw
      exact ih (m.registerWrite8_good5 hg hstep) hw

theorem numRomBanksOfHeader_pow (rom : List Nat)
    (h : numRomBanksOfHeader rom ≠ 0) :
    ∃ k, 1 ≤ k ∧ k ≤ 16 ∧ numRomBanksOfHeader rom = 2 ^ k := by
  have hlt : headerByte rom 0x148 % 16 < 16 := Nat.mod_lt _ (by omega)
  have hne : headerByte rom 0x148 % 16 ≠ 15 := by
    intro he
    apply h
    unfold numRomBanksOfHeader
    rw [he]
    decide
  refine ⟨headerByte rom 0x148 % 16 + 1, by omega, by omega, ?_⟩
  unfold numRomBanksOfHeader
  have hbound : 2 <<< (headerByte rom 0x148 % 16) < 65536 := by
    rw [Nat.shiftLeft_eq]
    have h14 : headerByte rom 0x148 % 16 ≤ 14 := by omega
    have hp := Nat.pow_le_pow_right (show 1 ≤ 2 by omega) h14
    have h214 : (2 : Nat) ^ 14 = 16384 := by norm_num
    omega
  rw [Nat.mod_eq_of_lt hbound, Nat.shiftLeft_eq, pow_succ, Nat.mul_comm]

theorem numRamBanksOfHeader_shape {rom : List Nat} {n : Nat}
    (h : numRamBanksOfHeader rom = some n) :
    n = 0 ∨ ∃ j, j ≤ 8 ∧ n = 2 ^ j := by
  unfold numRamBanksOfHeader at h
  split at h <;> simp only [Option.some.injEq, reduceCtorEq] at h
  · left; omega
  · right; exact ⟨0, by omega, by omega⟩
  · right; exact ⟨2, by omega, by omega⟩
  · right; exact ⟨4, by omega, by omega⟩
  · right; exact ⟨3, by omega, by omega⟩

theorem MBC1.fromCartridgeRom_good {rom : List Nat} {m : MBC1}
    (hh : numRomBanksOfHeader rom ≠ 0)
    (h : MBC1.fromCartridgeRom rom = some m) : m.Good := by
  obtain ⟨k, hk, hk16, hpow⟩ := numRomBanksOfHeader_pow rom hh
  simp only [fromCartridgeRom] at h
  cases hram : numRamBanksOfHeader rom with
  | none => rw [hram] at h; exact absurd h (by simp)
  | some nram =>
    rw [hram] at h
    rw [Option.some_bind] at h
    split_ifs at h <;>
      simp only [Option.some.injEq] at h <;> subst h <;>
      refine ⟨⟨k, hk, hk16, hpow⟩, numRamBanksOfHeader_shape hram, ?_, ?_,
              Or.inl rfl⟩ <;>
      rw [hpow]
    all_goals first
      | exact Nat.one_lt_two_pow (by omega)
      | exact Nat.two_pow_pos k

theorem MBC2.fromCartridgeHeader_good2 {rom : List Nat} {m : MBC2}
    (hh : numRomBanksOfHeader rom ≠ 0)
    (h : MBC2.fromCartridgeHeader rom = some m) : m.Good := by
  obtain ⟨k, hk, hk16, hpow⟩ := numRomBanksOfHeader_pow rom hh
  simp only [fromCartridgeHeader] at h
  cases hram : numRamBanksOfHeader rom with
  | none => rw [hram] at h; exact absurd h (by simp)
  | some nram =>
    rw [hram] at h
    rw [Option.some_bind] at h
    split_ifs at h
    simp only [Option.some.injEq] at h
    subst h
    exact ⟨⟨k, hk, hk16, hpow⟩, by rw [hpow]; exact Nat.one_lt_two_pow (by omega)⟩

theorem MBC3.fromCartridgeHeader_good3 {rom : List Nat} {m : MBC3}
    (hh : numRomBanksOfHeader rom ≠ 0)
    (h : MBC3.fromCartridgeHeader rom = some m) : m.Good := by
  obtain ⟨k, hk, hk16, hpow⟩ := numRomBanksOfHeader_pow rom hh
  simp only [fromCartridgeHeader] at h
  cases hram : numRamBanksOfHeader rom with
  | none => rw [hram] at h; exact absurd h (by simp)
  | some nram =>
    rw [hram] at h
    rw [Option.map_some'] at h
    simp only [Option.some.injEq] at h
    subst h
    exact ⟨⟨k, hk, hk16, hpow⟩, by rw [hpow]; exact Nat.one_lt_two_pow (by omega)⟩

theorem MBC5.fromCartridgeHeader_good5 {rom : List Nat} {m : MBC5}
    (hh : numRomBanksOfHeader rom ≠ 0)
    (h : MBC5.fromCartridgeHeader rom = some m) : m.Good := by
  obtain ⟨k, hk, hk16, hpow⟩ := numRomBanksOfHeader_pow rom hh
  simp only [fromCartridgeHeader] at h
  cases hram : numRamBanksOfHeader rom with
  | none => rw [hram] at h; exact absurd h (by simp)
  | some nram =>
    rw [hram] at h
    rw [Option.map_some'] at h
    simp only [Option.some.injEq] at h
    subst h
    exact ⟨⟨k, hk, hk16, hpow⟩, by rw [hpow]; exact Nat.one_lt_two_pow (by omega)⟩

/-- An all-zero 0x150-byte ROM image with RAM-size code 0x02 at 0x0149
(header declares 2 ROM banks and 1 RAM bank; type byte 0x11 = MBC3). -/
def romMbc3OneRam : List Nat :=
  (((List.replicate 0x150 0).set 0x147 0x11).set 0x148 0).set 0x149 2

/-- C5 counterexample: starting from the MBC3 controller constructed
from a header that declares a single RAM bank, the one register write
`0x4000 ← 0x03` selects RAM bank 3, which is not below the declared
RAM-bank count 1, refuting the claim for MBC3. -/
theorem mbc3_ram_bank_exceeds_declared_count :
    ((MBC3.fromCartridgeHeader romMbc3OneRam).bind
        (fun m => m.registerWrite8 0x4000 0x03)).map
        (fun m => (m.ramBank, m.numRamBanks)) = some (3, 1) ∧
      ¬ (3 < 1) := by
  constructor
  · rfl
  · decide

/-- An all-zero 0x150-byte ROM image with ROM-size code 0x0F at 0x0148:
`2u16 << 0x0F` wraps to 0 declared ROM banks (type byte 0x11 = MBC3). -/
def romMbc3ZeroBanks : List Nat :=
  ((List.replicate 0x150 0).set 0x147 0x11).set 0x148 0x0F

/-- C5 amended: for each of MBC1, MBC2, MBC3 and MBC5, starting from the
controller state built from a cartridge header whose declared ROM-bank
count `2u16 << rom[0x0148]` is nonzero (every ROM-size code except
0x0F mod 16), after every non-aborting sequence of controller-register
writes the selected ROM bank (and, for MBC1, the ROM0 bank) stays
strictly below the header-declared ROM-bank count, and the MBC1 RAM
bank stays below the declared RAM-bank count whenever it has been
written; the corresponding RAM-bank bound does not hold for MBC3 and
MBC5, whose RAM-bank selects store the raw 2-bit resp. 4-bit value.
The nonzero-count hypothesis is necessary: the final conjunct shows an
MBC3 cartridge with ROM-size code 0x0F, whose declared count wraps to
0, where one write leaves ROM bank 5 selected (the mask
`(0u16 - 1) as u8` is 0xFF and masks nothing). -/
theorem mbc_selected_rom_bank_lt_bank_count :
    (∀ (rom : List Nat) (m m' : MBC1) (ws : List (Nat × Nat)),
        numRomBanksOfHeader rom ≠ 0 →
        MBC1.fromCartridgeRom rom = some m →
        m.applyWrites ws = some m' →
        m'.romBank < m'.numRomBanks ∧ m'.rom0Bank < m'.numRomBanks ∧
          (m'.ramBank = 0 ∨ m'.ramBank < m'.numRamBanks)) ∧
    (∀ (rom : List Nat) (m m' : MBC2) (ws : List (Nat × Nat)),
        numRomBanksOfHeader rom ≠ 0 →
        MBC2.fromCartridgeHeader rom = some m →
        m.applyWrites ws = some m' →
        m'.romBank < m'.numRomBanks) ∧
    (∀ (rom : List Nat) (m m' : MBC3) (ws : List (Nat × Nat)),
        numRomBanksOfHeader rom ≠ 0 →
        MBC3.fromCartridgeHeader rom = some m →
        m.applyWrites ws = some m' →
        m'.romBank < m'.numRomBanks) ∧
    (∀ (rom : List Nat) (m m' : MBC5) (ws : List (Nat × Nat)),
        numRomBanksOfHeader rom ≠ 0 →
        MBC5.fromCartridgeHeader rom = some m →
        m.applyWrites ws = some m' →
        m'.romBank < m'.numRomBanks) ∧
    ((MBC3.fromCartridgeHeader romMbc3ZeroBanks).bind
        (fun m => m.registerWrite8 0x2000 0x05)).map
        (fun m => (m.romBank, m.numRomBanks)) = some (5, 0) := by
  refine ⟨fun rom m m' ws hh h0 hws => ?_, fun rom m m' ws hh h0 hws => ?_,
          fun rom m m' ws hh h0 hws => ?_, fun rom m m' ws hh h0 hws => ?_,
          rfl⟩
  · obtain ⟨_, _, p1, p2, p3⟩ :=
      MBC1.applyWrites_good (MBC1.fromCartridgeRom_good hh h0) hws
    exact ⟨p1, p2, p3⟩
  · exact (MBC2.applyWrites_good2
      (MBC2.fromCartridgeHeader_good2 hh h0) hws).2
  · exact (MBC3.applyWrites_good3
      (MBC3.fromCartridgeHeader_good3 hh h0) hws).2
  · exact (MBC5.applyWrites_good5
      (MBC5.fromCartridgeHeader_good5 hh h0) hws).2

/-! ## Header checksum -/

theorem u8sub_cast (a b : Nat) :
    ((u8sub a b : Nat) : ZMod 256) = (a : ZMod 256) - (b : ZMod 256) := by
  unfold u8sub
  have hb : b % 256 ≤ a + 256 :=
    le_trans (le_of_lt (Nat.mod_lt b (by omega))) (by omega)
  rw [ZMod.natCast_mod, Nat.cast_sub hb]
  push_cast [ZMod.natCast_mod]
  have h256 : (256 : ZMod 256) = 0 := by decide
  rw [h256]
  ring

theorem checksumFold_from (l : List Nat) (x : Nat) :
    ((l.foldl (fun x y => u8sub (u8sub x y) 1) x : Nat) : ZMod 256)
      = (x : ZMod 256) - (l.sum : ZMod 256) - (l.length : ZMod 256) := by
  induction l generalizing x with
  | nil => simp
  | cons y l ih =>
    simp only [List.foldl_cons, List.sum_cons, List.length_cons, ih,
               u8sub_cast]
    push_cast
    ring

theorem checksumFold_cast (l : List Nat) :
    ((checksumFold l : Nat) : ZMod 256)
      = -(l.sum : ZMod 256) - (l.length : ZMod 256) := by
  have h := checksumFold_from l 0
  simpa [checksumFold] using h

theorem u8sub_lt (a b : Nat) : u8sub a b < 256 := Nat.mod_lt _ (by omega)

theorem foldl_u8sub_lt (l : List Nat) (x : Nat) (hx : x < 256) :
    l.foldl (fun x y => u8sub (u8sub x y) 1) x < 256 := by
  induction l generalizing x with
  | nil => simpa
  | cons y l ih => exact ih _ (u8sub_lt _ _)

theorem checksumFold_lt (l : List Nat) : checksumFold l < 256 :=
  foldl_u8sub_lt l 0 (by omega)

/-- C8 amended: for every byte-valued ROM image holding the full header,
the emulator accepts it exactly when the checksum byte at 0x014D is
congruent to minus the sum of the bytes 0x0134–0x014C minus 25 (the
length of that range) modulo 256 — the offset is 25, not 19. -/
theorem header_checksum_amended (rom : List Nat) (hlen : 0x150 ≤ rom.length)
    (hbytes : ∀ b ∈ rom, b < 256) :
    isHeaderChecksumCorrect rom = true ↔
      ((headerChecksum rom : Nat) : ZMod 256)
        = -((headerChecksumBytes rom).sum : ZMod 256) - 25 := by
  have hlen25 : (headerChecksumBytes rom).length = 25 := by
    simp only [headerChecksumBytes, List.length_take, List.length_drop]
    omega
  have hfold := checksumFold_cast (headerChecksumBytes rom)
  rw [hlen25] at hfold
  have h25 : ((25 : Nat) : ZMod 256) = (25 : ZMod 256) := by decide
  rw [h25] at hfold
  have hidx : 0x14D < rom.length := by omega
  have hC : headerChecksum rom < 256 := by
    rw [headerChecksum, headerByte, List.getD_eq_getElem?_getD,
        List.getElem?_eq_getElem hidx]
    exact hbytes _ (List.getElem_mem hidx)
  have hF : checksumFold (headerChecksumBytes rom) < 256 := checksumFold_lt _
  unfold isHeaderChecksumCorrect
  rw [beq_iff_eq]
  constructor
  · intro h
    rw [h, hfold]
  · intro h
    have h2 : ((headerChecksum rom : Nat) : ZMod 256)
        = ((checksumFold (headerChecksumBytes rom) : Nat) : ZMod 256) := by
      rw [hfold]; exact h
    rw [ZMod.natCast_eq_natCast_iff'] at h2
    rwa [Nat.mod_eq_of_lt hC, Nat.mod_eq_of_lt hF] at h2

/-- An all-zero 0x150-byte ROM image whose checksum byte 0x014D holds
the value 231 = (0 − 0·25 − 25) mod 256 that the emulator's loop
computes for 25 zero bytes. -/
def romChecksumOk : List Nat := (List.replicate 0x150 0).set 0x14D 231

/-- Witness for the C8 amended theorem at the concrete all-zero
header. -/
theorem header_checksum_amended_witness :
    isHeaderChecksumCorrect romChecksumOk = true ↔
      ((headerChecksum romChecksumOk : Nat) : ZMod 256)
        = -((headerChecksumBytes romChecksumOk).sum : ZMod 256) - 25 :=
  header_checksum_amended romChecksumOk (by decide) (by decide)

/-- C8 counterexample: the all-zero header with checksum byte 231 is
accepted by `is_header_checksum_correct`, yet its checksum byte is not
−(sum of the 25 header bytes) − 19 (mod 256), which would be 237; the
claimed offset −19 contradicts the code's −25. -/
theorem header_checksum_not_minus_19 :
    isHeaderChecksumCorrect romChecksumOk = true ∧
      ¬ (((headerChecksum romChecksumOk : Nat) : ZMod 256)
          = -((headerChecksumBytes romChecksumOk).sum : ZMod 256) - 19) := by
  refine ⟨by decide, by decide⟩

/-- Witness for the C5 amended theorem at a concrete cartridge: the
MBC3 controller of `romMbc3OneRam`, after the write `0x2000 ← 0x05`,
has its ROM bank below the declared count. -/
theorem mbc_selected_rom_bank_lt_bank_count_witness :
    (MBC3.mk 1 0 2 1 false).romBank
      < (MBC3.mk 1 0 2 1 false).numRomBanks :=
  mbc_selected_rom_bank_lt_bank_count.2.2.1 romMbc3OneRam
    (MBC3.mk 1 0 2 1 false) (MBC3.mk 1 0 2 1 false)
    [(0x2000, 0x05)] (by decide) (by decide) (by decide)

/-! ## Cartridge (`src/game_boy/cartridge.rs`) -/

/-- Bitwise complement of a byte (Rust `!x` on `u8`). -/
def u8not (x : Nat) : Nat := x ^^^ 255

/-- `enum MemoryController` (only the implemented variants). -/
inductive MemoryController where
  | noController
  | mbc1 (m : MBC1)
  | mbc2 (m : MBC2)
  | mbc3 (m : MBC3)
  | mbc5 (m : MBC5)
deriving Repr, DecidableEq

namespace MemoryController

/-- `rom_bank_offset` of each controller. -/
def romBankOffset : MemoryController → Nat
  | noController => 0x4000
  | mbc1 m => 0x4000 * m.romBank
  | mbc2 m => 0x4000 * m.romBank
  | mbc3 m => 0x4000 * m.romBank
  | mbc5 m => 0x4000 * m.romBank

/-- `ram_bank_offset` of each controller. -/
def ramBankOffset : MemoryController → Nat
  | noController => 0
  | mbc1 m => if m.bankingMode = 1 then 0x2000 * m.ramBank else 0
  | mbc2 _ => 0
  | mbc3 m => 0x2000 * m.ramBank
  | mbc5 m => 0x2000 * m.ramBank

/-- `is_ram_enabled` of each controller. -/
def isRamEnabled : MemoryController → Bool
  | noController => true
  | mbc1 m => m.ramEnabled
  | mbc2 m => m.ramEnabled
  | mbc3 m => m.ramEnabled
  | mbc5 m => m.ramEnabled

/-- `MemoryController::rom0_read8` (out-of-range indexing panics). -/
def rom0Read8 (mc : MemoryController) (rom : List Nat) (address : Nat) :
    Option Nat :=
  match mc with
  | mbc1 m => rom.get? (address + 0x4000 * m.rom0Bank)
  | _ => rom.get? address

/-- `MemoryController::romx_read8` (callers pass 0x4000–0x7FFF). -/
def romxRead8 (mc : MemoryController) (rom : List Nat) (address : Nat) :
    Option Nat :=
  match mc with
  | noController => rom.get? address
  | _ => rom.get? (address - 0x4000 + mc.romBankOffset)

/-- `MemoryController::ram_read8`: the default trait method, with the
MBC2 override (512 mirrored nibbles, high nibble forced to 1). -/
def ramRead8 (mc : MemoryController) (ram : List Nat) (address : Nat) :
    Option Nat :=
  match mc with
  | noController => ram.get? address
  | mbc2 m =>
    if m.ramEnabled then (ram.get? (address &&& 0x01FF)).map (· ||| 0xF0)
    else some 0xFF
  | _ =>
    if mc.isRamEnabled then
      ram.get? (address - 0xA000 + mc.ramBankOffset)
    else some 0xFF

/-- `MemoryController::ram_write8` (out-of-range indexing panics;
disabled RAM drops the write). -/
def ramWrite8 (mc : MemoryController) (ram : List Nat)
    (address value : Nat) : Option (List Nat) :=
  match mc with
  | noController => none
  | mbc2 m =>
    if m.ramEnabled then
      let offset := address &&& 0x01FF
      if offset < ram.length then some (ram.set offset (value &&& 0x0F))
      else none
    else some ram
  | _ =>
    if mc.isRamEnabled then
      let offset := address - 0xA000 + mc.ramBankOffset
      if offset < ram.length then some (ram.set offset value) else none
    else some ram

/-- `MemoryController::register_write8` (`NoController` is
`unimplemented!`). -/
def registerWrite8 (mc : MemoryController) (address value : Nat) :
    Option MemoryController :=
  match mc with
  | noController => none
  | mbc1 m => (m.registerWrite8 address value).map mbc1
  | mbc2 m => (m.registerWrite8 address value).map mbc2
  | mbc3 m => (m.registerWrite8 address value).map mbc3
  | mbc5 m => (m.registerWrite8 address value).map mbc5

end MemoryController

/-- `struct Cartridge`. -/
structure Cartridge where
  rom : List Nat
  ram : List Nat
  mc : MemoryController
deriving Repr, DecidableEq

namespace Cartridge

/-- `Cartridge::rom0_read8`. -/
def rom0Read8 (c : Cartridge) (address : Nat) : Option Nat :=
  c.mc.rom0Read8 c.rom address

/-- `Cartridge::read8` (non-cartridge addresses panic). -/
def read8 (c : Cartridge) (address : Nat) : Option Nat :=
  if address ≤ 0x3FFF then c.rom0Read8 address
  else if address ≤ 0x7FFF then c.mc.romxRead8 c.rom address
  else if 0xA000 ≤ address ∧ address ≤ 0xBFFF then
    c.mc.ramRead8 c.ram address
  else none

/-- `Cartridge::write8` (non-cartridge addresses panic). -/
def write8 (c : Cartridge) (address value : Nat) : Option Cartridge :=
  if address ≤ 0x7FFF then
    (c.mc.registerWrite8 address value).map fun mc => { c with mc }
  else if 0xA000 ≤ address ∧ address ≤ 0xBFFF then
    (c.mc.ramWrite8 c.ram address value).map fun ram => { c with ram }
  else none

end Cartridge

/-! ## Memory and memory bus (`src/game_boy/memory.rs`) -/

/-- `struct Memory`: the flat 64 KiB array is modelled as a total
function from addresses to bytes. -/
structure GBMemory where
  memory : Nat → Nat
  cartridge : Cartridge
  bootRom : Option (Nat → Nat)
  joypad : Nat
  timer : Timer

namespace GBMemory

/-- Point update of the flat 64 KiB array. -/
def setMem (m : GBMemory) (a v : Nat) : GBMemory :=
  { m with memory := fun x => if x = a then v else m.memory x }

/-- The array contents set up by `Memory::new` (joypad, IF and STAT
upper bits are 1). -/
def memBase : Nat → Nat := fun a =>
  if a = 0xFF00 then 0xCF
  else if a = 0xFF0F then 0xE0
  else if a = 0xFF41 then 0x80
  else 0

/-- `Memory::new`. -/
def new (cartridge : Cartridge) (bootRom : Nat → Nat) : GBMemory :=
  { memory := memBase, cartridge, bootRom := some bootRom, joypad := 0,
    timer := Timer.default }

/-- `Memory::read8`; `unimplemented!` arms (the unusable range
0xFEA0–0xFEFF among them) are `none`. -/
def read8 (m : GBMemory) (address : Nat) : Option Nat :=
  if address ≤ 0x00FF then
    match m.bootRom with
    | some bootRom => some (bootRom address)
    | none => m.cartridge.rom0Read8 address
  else if address ≤ 0x7FFF then m.cartridge.read8 address
  else if address ≤ 0x9FFF then some (m.memory address)
  else if address ≤ 0xBFFF then m.cartridge.read8 address
  else if address ≤ 0xDFFF then some (m.memory address)
  else if address ≤ 0xFDFF then some (m.memory (address - 0xE000 + 0xC000))
  else if address ≤ 0xFE9F then some (m.memory address)
  else if address ≤ 0xFEFF then none
  else if address = 0xFF00 then some (m.memory address)
  else if address ≤ 0xFF03 then none
  else if address = 0xFF04 then some m.timer.getDivider
  else if address = 0xFF05 then some m.timer.getTimer
  else if address = 0xFF06 then some m.timer.getModulo
  else if address = 0xFF07 then some m.timer.getControl
  else if address ≤ 0xFF0E then none
  else if address = 0xFF0F then some (m.memory address)
  else if address ≤ 0xFF26 then some 0x00
  else if address ≤ 0xFF2F then none
  else if address ≤ 0xFF3F then some 0x00
  else if address ≤ 0xFF4B then
    if 0xFF47 ≤ address ∧ address ≤ 0xFF49 then none
    else some (m.memory address)
  else if address ≤ 0xFF7F then none
  else if address ≤ 0xFFFE then some (m.memory address)
  else if address = 0xFFFF then some (m.memory address)
  else none

/-- `Memory::update_joypad_register`: recompute the joypad low nibble
from the select lines, possibly requesting a Joypad interrupt. -/
def updateJoypadRegister (m : GBMemory) : Bool × GBMemory :=
  let joypadRegister := m.memory 0xFF00
  let joypad0 := 0
  let joypad1 :=
    if joypadRegister &&& 0x10 = 0 then joypad0 ||| (m.joypad &&& 0x0F)
    else joypad0
  let joypad :=
    if joypadRegister &&& 0x20 = 0 then
      joypad1 ||| ((m.joypad >>> 4) &&& 0x0F)
    else joypad1
  let m1 := m.setMem 0xFF00
    ((joypadRegister &&& 0xF0) ||| (u8not joypad &&& 0x0F))
  if (joypadRegister &&& 0x0F) &&& joypad ≠ 0 then
    (true, m1.setMem 0xFF0F (m1.memory 0xFF0F ||| (1 <<< 4)))
  else (false, m1)

/-- `Memory::set_key_presses`. -/
def setKeyPresses (m : GBMemory) (presses : Nat) : Bool × GBMemory :=
  updateJoypadRegister { m with joypad := presses }

/-- `Memory::write8`; the arm order of the nested Rust `match` is kept
(0xFF44 panics before the 0xFF42–0xFF45 arm can store), and
`unimplemented!` arms are `none`. -/
def write8 (m : GBMemory) (address value : Nat) : Option GBMemory :=
  if address ≤ 0x7FFF then
    (m.cartridge.write8 address value).map fun c => { m with cartridge := c }
  else if address ≤ 0x9FFF then some (m.setMem address value)
  else if address ≤ 0xBFFF then
    (m.cartridge.write8 address value).map fun c => { m with cartridge := c }
  else if address ≤ 0xDFFF then some (m.setMem address value)
  else if address ≤ 0xFDFF then
    some (m.setMem (address - 0xE000 + 0xC000) value)
  else if address ≤ 0xFE9F then some (m.setMem address value)
  else if address ≤ 0xFEFF then some m
  else if address ≤ 0xFF7F then
    if address = 0xFF00 then
      some ((m.setMem 0xFF00 (0xC0 ||| value)).updateJoypadRegister).2
    else if address ≤ 0xFF02 then some (m.setMem address value)
    else if address = 0xFF04 then
      let (i, t) := m.timer.resetDivider
      let m1 : GBMemory := { m with timer := t }
      some (if i then m1.setMem 0xFF0F (m1.memory 0xFF0F ||| 4) else m1)
    else if address = 0xFF05 then
      let (i, t) := m.timer.setTimer value
      let m1 : GBMemory := { m with timer := t }
      some (if i then m1.setMem 0xFF0F (m1.memory 0xFF0F ||| 4) else m1)
    else if address = 0xFF06 then
      some { m with timer := m.timer.setModulo value }
    else if address = 0xFF07 then
      let (i, t) := m.timer.setControl value
      let m1 : GBMemory := { m with timer := t }
      some (if i then m1.setMem 0xFF0F (m1.memory 0xFF0F ||| 4) else m1)
    else if address = 0xFF0F then some (m.setMem address (0xE0 ||| value))
    else if 0xFF10 ≤ address ∧ address ≤ 0xFF26 then some m
    else if 0xFF30 ≤ address ∧ address ≤ 0xFF3F then some m
    else if address = 0xFF40 then some (m.setMem address value)
    else if address = 0xFF41 then
      let value := value &&& u8not 0x07
      some (m.setMem address ((m.memory address &&& 0x87) ||| value))
    else if address = 0xFF44 then none
    else if 0xFF42 ≤ address ∧ address ≤ 0xFF45 then
      some (m.setMem address value)
    else if address = 0xFF46 then some (m.setMem address value)
    else if 0xFF47 ≤ address ∧ address ≤ 0xFF49 then
      some (m.setMem address value)
    else if 0xFF4A ≤ address ∧ address ≤ 0xFF4B then
      some (m.setMem address value)
    else if address = 0xFF50 then
      let m1 := if value &&& 1 ≠ 0 then { m with bootRom := none } else m
      some (m1.setMem address value)
    else if 0xFF72 ≤ address ∧ address ≤ 0xFF7F then some m
    else none
  else if address ≤ 0xFFFE then some (m.setMem address value)
  else if address = 0xFFFF then some (m.setMem address value)
  else none

/-- `Memory::set_ly`: store LY, refresh the LYC=LY STAT bit, and
request a STAT interrupt when enabled. -/
def setLy (m : GBMemory) (ly : Nat) : GBMemory :=
  let m1 := m.setMem 0xFF44 ly
  let equal := ly == m1.memory 0xFF45
  let flags := m1.memory 0xFF41
  let flags1 := if equal then flags ||| (1 <<< 2) else flags &&& u8not (1 <<< 2)
  let m2 := m1.setMem 0xFF41 flags1
  if equal && (m2.memory 0xFF41 &&& (1 <<< 6) != 0) then
    m2.setMem 0xFF0F (m2.memory 0xFF0F ||| 2)
  else m2

end GBMemory

/-- `struct OamDmaTransfer`. -/
structure OamDmaTransfer where
  address : Nat
  preTransferCountdown : Nat
  activeTransfer : Bool
deriving Repr, DecidableEq

namespace OamDmaTransfer

/-- `OamDmaTransfer::new`: pages ≥ 0xE0 are remapped to work RAM; a
restart inherits the active flag. -/
def new (upperAddress : Nat) (restarting : Bool) : OamDmaTransfer :=
  let upperAddress :=
    if 0xE0 ≤ upperAddress then upperAddress - 0xE0 + 0xC0 else upperAddress
  { address := upperAddress <<< 8, preTransferCountdown := 3,
    activeTransfer := restarting }

/-- `OamDmaTransfer::step`: copy one byte (or count the pre-transfer
countdown down); returns whether the transfer has finished. -/
def step (d : OamDmaTransfer) (m : GBMemory) :
    Option (Bool × OamDmaTransfer × GBMemory) :=
  if 0 < d.preTransferCountdown then
    let c := d.preTransferCountdown - 1
    some (false,
          { d with preTransferCountdown := c,
                   activeTransfer := if c = 0 then true else d.activeTransfer },
          m)
  else
    (m.read8 d.address).bind fun value =>
    let target := 0xFE00 ||| (d.address &&& 0xFF)
    (m.write8 target value).map fun m1 =>
    (decide (0xFE9F ≤ target), { d with address := u16 (d.address + 1) }, m1)

/-- `is_active` for `Option<OamDmaTransfer>`. -/
def isActiveOpt : Option OamDmaTransfer → Bool
  | some d => d.activeTransfer
  | none => false

end OamDmaTransfer

/-- `struct MemoryBus`. -/
structure MemoryBus where
  memory : GBMemory
  dmaTransfer : Option OamDmaTransfer

namespace MemoryBus

/-- `MemoryBus::read8`: while an OAM DMA transfer is active, reads at
addresses below 0xFF80 other than 0xFF46 return 0xFF. -/
def read8 (bus : MemoryBus) (address : Nat) : Option Nat :=
  if OamDmaTransfer.isActiveOpt bus.dmaTransfer
     && decide (address < 0xFF80) && decide (address ≠ 0xFF46) then
    some 0xFF
  else bus.memory.read8 address

/-- `MemoryBus::write8`: a write to 0xFF46 (re)starts OAM DMA; while a
transfer is active, writes below 0xFF80 are dropped. -/
def write8 (bus : MemoryBus) (address value : Nat) : Option MemoryBus :=
  if address = 0xFF46 then
    (bus.memory.write8 address value).map fun m =>
      { memory := m,
        dmaTransfer :=
          some (OamDmaTransfer.new value bus.dmaTransfer.isSome) }
  else if !(OamDmaTransfer.isActiveOpt bus.dmaTransfer)
          || decide (0xFF80 ≤ address) then
    (bus.memory.write8 address value).map fun m => { bus with memory := m }
  else
    some bus

/-- `MemoryBus::read16` (little endian). -/
def read16 (bus : MemoryBus) (address : Nat) : Option Nat :=
  (bus.read8 address).bind fun lo =>
  (bus.read8 (u16 (address + 1))).map fun hi => lo + (hi <<< 8)

/-- `MemoryBus::write16` (low byte first). -/
def write16 (bus : MemoryBus) (address value : Nat) : Option MemoryBus :=
  (bus.write8 address (u8 value)).bind fun b =>
  b.write8 (u16 (address + 1)) (value >>> 8)

/-- The DMA for-loop inside `MemoryBus::step` (one iteration per
M-cycle, stopping when the transfer finishes). -/
def stepDma (d : OamDmaTransfer) (m : GBMemory) (n : Nat) :
    Option (Option OamDmaTransfer × GBMemory) :=
  match n with
  | 0 => some (some d, m)
  | n + 1 =>
    (d.step m).bind fun r =>
      if r.1 then some (none, r.2.2) else stepDma r.2.1 r.2.2 n

/-- `MemoryBus::step`: advance the OAM DMA machine and the timer,
requesting the Timer interrupt when the timer reports one. -/
def step (bus : MemoryBus) (cycles : Nat) : Option MemoryBus :=
  let dmaRes :=
    match bus.dmaTransfer with
    | some d => stepDma d bus.memory (cycles / 4)
    | none => some (none, bus.memory)
  dmaRes.map fun r =>
    let (i, t) := r.2.timer.step cycles
    let m1 : GBMemory := { r.2 with timer := t }
    { memory := if i then m1.setMem 0xFF0F (m1.memory 0xFF0F ||| 4) else m1,
      dmaTransfer := r.1 }

/-- `Memory::get_requested_interrupts`, lifted through the bus. -/
def getRequestedInterrupts (bus : MemoryBus) : Option Nat :=
  (bus.memory.read8 0xFF0F).bind fun requests =>
  (bus.memory.read8 0xFFFF).map fun enabled =>
  requests &&& enabled &&& 0x1F

end MemoryBus

/-! ## Concrete machine states for the memory-bus claims -/

/-- A cartridge with no memory controller and no RAM. -/
def cartDummy : Cartridge := { rom := [], ram := [], mc := .noController }

/-- A freshly constructed memory (all-zero boot ROM). -/
def memFresh : GBMemory := GBMemory.new cartDummy (fun _ => 0)

/-- A fresh bus with no OAM DMA transfer. -/
def busFresh : MemoryBus := { memory := memFresh, dmaTransfer := none }

/-- A fresh bus with an active OAM DMA transfer from page 0xC1. -/
def busDmaActive : MemoryBus :=
  { memory := memFresh,
    dmaTransfer := some { address := 0xC100, preTransferCountdown := 0,
                          activeTransfer := true } }

/-! ## Timer reload cancellation (C2) -/

/-- The bus after TAC ← 0x05 (enabled, tap bit 3), TMA ← 0x99,
TIMA ← 0xFF and 16 T-cycles: TIMA has just overflowed, reads 0x00, and
its reload from TMA is pending. -/
def busTimaPending : Option MemoryBus :=
  (busFresh.write8 0xFF07 0x05).bind fun b =>
  (b.write8 0xFF06 0x99).bind fun b =>
  (b.write8 0xFF05 0xFF).bind fun b =>
  b.step 16

/-- C2: in the pending-reload M-cycle (TIMA reads 0x00, reload
scheduled), writing 0x42 to TIMA (0xFF05) does *not* cancel the reload:
`Timer::set_timer` stores the value but immediately calls
`update_timer`, which reloads TIMA from TMA (0x99) and requests the
Timer interrupt (IF bit 2), contradicting the specified cancellation. -/
theorem tima_write_during_pending_reload_reloads_and_interrupts :
    busTimaPending.map
        (fun b => (b.read8 0xFF05, b.memory.timer.timerOverflowScheduled))
      = some (some 0x00, true) ∧
    (busTimaPending.bind fun b => b.write8 0xFF05 0x42).map
        (fun b => (b.read8 0xFF05, b.memory.memory 0xFF0F &&& 4))
      = some (some 0x99, 4) ∧
    (0x99 : Nat) ≠ 0x42 := by
  refine ⟨rfl, rfl, by decide⟩

/-! ## OAM DMA blackout (C3) -/

/-- C3 counterexample: with OAM DMA active, address 0xFFFF (the
interrupt-enable register) is *not* blocked — the claim says reads
outside 0xFF80–0xFFFE return 0xFF and writes are dropped, but the code
only blocks addresses strictly below 0xFF80: the read returns the IE
byte 0 (not 0xFF) and a write of 0x1F lands in IE. -/
theorem oam_dma_blackout_allows_ie_access :
    busDmaActive.read8 0xFFFF = some 0 ∧
    (some (0 : Nat) : Option Nat) ≠ some 0xFF ∧
    (busDmaActive.write8 0xFFFF 0x1F).map
        (fun b => b.memory.memory 0xFFFF) = some 0x1F ∧
    busDmaActive.memory.memory 0xFFFF = 0 := by
  refine ⟨rfl, by decide, rfl, rfl⟩

/-- C3 amended: while OAM DMA is active the blocked region is exactly
the addresses below 0xFF80 other than 0xFF46 — there reads return 0xFF
and writes are dropped; addresses from 0xFF80 up, 0xFFFF included,
pass through to the underlying memory. -/
theorem oam_dma_blackout (bus : MemoryBus) (a v b : Nat)
    (hdma : OamDmaTransfer.isActiveOpt bus.dmaTransfer = true)
    (ha : a < 0xFF80) (ha46 : a ≠ 0xFF46) (hb : 0xFF80 ≤ b) :
    bus.read8 a = some 0xFF ∧ bus.write8 a v = some bus ∧
    bus.read8 b = bus.memory.read8 b := by
  refine ⟨?_, ?_, ?_⟩
  · unfold MemoryBus.read8
    rw [hdma]
    simp [ha, ha46]
  · unfold MemoryBus.write8
    rw [if_neg ha46, hdma]
    simp [Nat.not_le.mpr ha]
  · unfold MemoryBus.read8
    simp [Nat.not_lt.mpr hb]

/-- Witness for the C3 amended theorem at concrete inputs: with DMA
active, 0xFF00 is blocked and 0xFFFF passes through. -/
theorem oam_dma_blackout_witness :
    busDmaActive.read8 0xFF00 = some 0xFF ∧
    busDmaActive.write8 0xFF00 5 = some busDmaActive ∧
    busDmaActive.read8 0xFFFF = busDmaActive.memory.read8 0xFFFF :=
  oam_dma_blackout busDmaActive 0xFF00 5 0xFFFF rfl (by decide) (by decide)
    (by decide)

/-! ## Unusable range 0xFEA0–0xFEFF (C7) -/

/-- C7: on the unusable range the write is indeed ignored, but the read
arm is `unimplemented!` — it aborts instead of returning 0, although
the comment right above it in `memory.rs` says reading returns 0. -/
theorem unusable_range_read_aborts (m : GBMemory) (a v : Nat)
    (h1 : 0xFEA0 ≤ a) (h2 : a ≤ 0xFEFF) :
    m.read8 a = none ∧ m.write8 a v = some m := by
  constructor
  · have hga : ¬ a ≤ 0x00FF := by omega
    have hgb : ¬ a ≤ 0x7FFF := by omega
    have hgc : ¬ a ≤ 0x9FFF := by omega
    have hgd : ¬ a ≤ 0xBFFF := by omega
    have hge : ¬ a ≤ 0xDFFF := by omega
    have hgf : ¬ a ≤ 0xFDFF := by omega
    have hgg : ¬ a ≤ 0xFE9F := by omega
    have hgh : a ≤ 0xFEFF := by omega
    unfold GBMemory.read8
    rw [if_neg hga, if_neg hgb, if_neg hgc, if_neg hgd, if_neg hge,
        if_neg hgf, if_neg hgg, if_pos hgh]
  · have hwa : ¬ a ≤ 0x7FFF := by omega
    have hwb : ¬ a ≤ 0x9FFF := by omega
    have hwc : ¬ a ≤ 0xBFFF := by omega
    have hwd : ¬ a ≤ 0xDFFF := by omega
    have hwe : ¬ a ≤ 0xFDFF := by omega
    have hwf : ¬ a ≤ 0xFE9F := by omega
    have hwg : a ≤ 0xFEFF := by omega
    unfold GBMemory.write8
    rw [if_neg hwa, if_neg hwb, if_neg hwc, if_neg hwd, if_neg hwe,
        if_neg hwf, if_pos hwg]

/-- Witness for C7 at the concrete failing input `read8(0xFEA0)`. -/
theorem unusable_range_read_aborts_witness :
    memFresh.read8 0xFEA0 = none ∧ memFresh.write8 0xFEA0 0x12 = some memFresh :=
  unusable_range_read_aborts memFresh 0xFEA0 0x12 (by decide) (by decide)

/-! ## Writing LY (C10) -/

/-- C10 counterexample: while an OAM DMA transfer is active, a CPU
write to 0xFF44 through the bus is silently dropped by the DMA
blackout instead of panicking — the claim says every such write aborts
and is never silently ignored. -/
theorem ly_write_silently_dropped_during_dma :
    busDmaActive.write8 0xFF44 0x07 = some busDmaActive ∧
    busDmaActive.write8 0xFF44 0x07 ≠ none := by
  have h : busDmaActive.write8 0xFF44 0x07 = some busDmaActive := rfl
  exact ⟨h, by rw [h]; simp⟩

/-- C10 amended: `Memory::write8` always panics on 0xFF44, and through
the bus a write of any value to 0xFF44 panics whenever no OAM DMA
blackout intercepts it (when DMA is active the write is dropped);
LY itself is only stored through `Memory::set_ly`. -/
theorem ly_write_panics (bus : MemoryBus) (m : GBMemory) (v ly : Nat)
    (h : OamDmaTransfer.isActiveOpt bus.dmaTransfer = false) :
    m.write8 0xFF44 v = none ∧ bus.write8 0xFF44 v = none ∧
    (m.setLy ly).memory 0xFF44 = ly := by
  refine ⟨rfl, ?_, ?_⟩
  · unfold MemoryBus.write8
    rw [if_neg (by decide), h]
    have h0 : bus.memory.write8 0xFF44 v = none := rfl
    simp [h0]
  · simp only [GBMemory.setLy, GBMemory.setMem]
    split_ifs <;> simp

/-- Witness for the C10 amended theorem at concrete inputs. -/
theorem ly_write_panics_witness :
    memFresh.write8 0xFF44 0x07 = none ∧
    busFresh.write8 0xFF44 0x07 = none ∧
    (memFresh.setLy 0x03).memory 0xFF44 = 0x03 :=
  ly_write_panics busFresh memFresh 0x07 0x03 rfl

/-! ## CPU (`src/game_boy/cpu.rs`)

For the CPU claims the memory bus is abstracted as a total byte store:
the CPU's register, flag and SP/PC behaviour depends only on the byte
values reads yield, so quantifying over all stores covers every bus
behaviour; the bus's own side effects and aborts are modelled above. -/

/-- The byte store the CPU executes against. -/
def CpuMem : Type := Nat → Nat

/-- A bus read: a byte at a 16-bit address. -/
def CpuMem.read8 (m : CpuMem) (a : Nat) : Nat := m (u16 a) % 256

/-- A bus write of a byte at a 16-bit address. -/
def CpuMem.write8 (m : CpuMem) (a v : Nat) : CpuMem :=
  fun x => if x = u16 a then u8 v else m x

/-- `MemoryBus::read16` seen from the CPU (little endian). -/
def CpuMem.read16 (m : CpuMem) (a : Nat) : Nat :=
  m.read8 a + (m.read8 (u16 (a + 1)) <<< 8)

/-- `MemoryBus::write16` seen from the CPU (low byte first). -/
def CpuMem.write16 (m : CpuMem) (a v : Nat) : CpuMem :=
  (m.write8 a (u8 v)).write8 (u16 (a + 1)) (v >>> 8)

/-- `enum U8Register`. -/
inductive U8Register where
  | A | F | B | C | D | E | H | L
deriving Repr, DecidableEq

/-- `enum U16Register`. -/
inductive U16Register where
  | AF | BC | DE | HL
deriving Repr, DecidableEq

/-- `struct Registers`. -/
structure Registers where
  a : Nat
  f : Nat
  b : Nat
  c : Nat
  d : Nat
  e : Nat
  h : Nat
  l : Nat
deriving Repr, DecidableEq

namespace Registers

/-- `Registers::new`. -/
def new : Registers := ⟨0, 0, 0, 0, 0, 0, 0, 0⟩

/-- `Registers::read8`. -/
def read8 (r : Registers) : U8Register → Nat
  | .A => r.a
  | .F => r.f
  | .B => r.b
  | .C => r.c
  | .D => r.d
  | .E => r.e
  | .H => r.h
  | .L => r.l

/-- `Registers::write8` (stores the value raw — the decoder never
produces F as a write target). -/
def write8 (r : Registers) (register : U8Register) (value : Nat) :
    Registers :=
  match register with
  | .A => { r with a := value }
  | .F => { r with f := value }
  | .B => { r with b := value }
  | .C => { r with c := value }
  | .D => { r with d := value }
  | .E => { r with e := value }
  | .H => { r with h := value }
  | .L => { r with l := value }

/-- `Registers::read16`. -/
def read16 (r : Registers) : U16Register → Nat
  | .AF => (r.a <<< 8) ||| r.f
  | .BC => (r.b <<< 8) ||| r.c
  | .DE => (r.d <<< 8) ||| r.e
  | .HL => (r.h <<< 8) ||| r.l

/-- `Registers::write16`: the AF arm masks the low nibble of F to 0. -/
def write16 (r : Registers) (register : U16Register) (value : Nat) :
    Registers :=
  let high := (value &&& 0xFF00) >>> 8
  let low := value &&& 0xFF
  match register with
  | .AF => { r with a := high, f := low &&& 0xF0 }
  | .BC => { r with b := high, c := low }
  | .DE => { r with d := high, e := low }
  | .HL => { r with h := high, l := low }

end Registers

/-- `struct CPU`. -/
structure CPU where
  registers : Registers
  sp : Nat
  pc : Nat
  ime : Bool
  halt : Bool
deriving Repr, DecidableEq

/-- `CPU::new`. -/
def CPU.new : CPU :=
  { registers := Registers.new, sp := 0xFFFE, pc := 0, ime := false,
    halt := false }

/-- `enum Flag` (bit masks within F). -/
def flagZero : Nat := 1 <<< 7
def flagSubtract : Nat := 1 <<< 6
def flagHalfCarry : Nat := 1 <<< 5
def flagCarry : Nat := 1 <<< 4

/-- `enum ArithmeticOperand`. -/
inductive ArithmeticOperand where
  | Register (r : U8Register)
  | HLI
  | D8
deriving Repr, DecidableEq

/-- `From<u8> for ArithmeticOperand` (other values panic). -/
def arithmeticOperandOfNat : Nat → Option ArithmeticOperand
  | 0 => some (.Register .B)
  | 1 => some (.Register .C)
  | 2 => some (.Register .D)
  | 3 => some (.Register .E)
  | 4 => some (.Register .H)
  | 5 => some (.Register .L)
  | 6 => some .HLI
  | 7 => some (.Register .A)
  | _ => none

/-- `ArithmeticOperand::cycles`. -/
def ArithmeticOperand.cycles : ArithmeticOperand → Nat
  | .Register _ => 0
  | .HLI => 4
  | .D8 => 4

/-- `enum ArithmeticWordSource`. -/
inductive ArithmeticWordSource where
  | BC | DE | HL | SP
deriving Repr, DecidableEq

/-- `From<u8> for ArithmeticWordSource`. -/
def arithmeticWordSourceOfNat : Nat → Option ArithmeticWordSource
  | 0 => some .BC
  | 1 => some .DE
  | 2 => some .HL
  | 3 => some .SP
  | _ => none

/-- `enum NonDirectArithmeticOperand`. -/
inductive NonDirectArithmeticOperand where
  | Register (r : U8Register)
  | HLI
deriving Repr, DecidableEq

/-- `From<u8> for NonDirectArithmeticOperand`. -/
def nonDirectOfNat : Nat → Option NonDirectArithmeticOperand
  | 0 => some (.Register .B)
  | 1 => some (.Register .C)
  | 2 => some (.Register .D)
  | 3 => some (.Register .E)
  | 4 => some (.Register .H)
  | 5 => some (.Register .L)
  | 6 => some .HLI
  | 7 => some (.Register .A)
  | _ => none

/-- `NonDirectArithmeticOperand::cycles`. -/
def NonDirectArithmeticOperand.cycles : NonDirectArithmeticOperand → Nat
  | .Register _ => 0
  | .HLI => 8

/-- `enum LoadByteTarget`. -/
inductive LoadByteTarget where
  | Register (r : U8Register)
  | HLI
deriving Repr, DecidableEq

/-- `From<u8> for LoadByteTarget`. -/
def loadByteTargetOfNat : Nat → Option LoadByteTarget
  | 0 => some (.Register .B)
  | 1 => some (.Register .C)
  | 2 => some (.Register .D)
  | 3 => some (.Register .E)
  | 4 => some (.Register .H)
  | 5 => some (.Register .L)
  | 6 => some .HLI
  | 7 => some (.Register .A)
  | _ => none

/-- `LoadByteTarget::cycles`. -/
def LoadByteTarget.cycles : LoadByteTarget → Nat
  | .Register _ => 0
  | .HLI => 4

/-- `enum LoadWordTarget`. -/
inductive LoadWordTarget where
  | Register (rr : U16Register)
  | SP
deriving Repr, DecidableEq

/-- `From<u8> for LoadWordTarget`. -/
def loadWordTargetOfNat : Nat → Option LoadWordTarget
  | 0 => some (.Register .BC)
  | 1 => some (.Register .DE)
  | 2 => some (.Register .HL)
  | 3 => some .SP
  | _ => none

/-- `enum LoadByteSource`. -/
inductive LoadByteSource where
  | Register (r : U8Register)
  | D8
  | HLI
deriving Repr, DecidableEq

/-- `From<u8> for LoadByteSource`. -/
def loadByteSourceOfNat : Nat → Option LoadByteSource
  | 0 => some (.Register .B)
  | 1 => some (.Register .C)
  | 2 => some (.Register .D)
  | 3 => some (.Register .E)
  | 4 => some (.Register .H)
  | 5 => some (.Register .L)
  | 6 => some .HLI
  | 7 => some (.Register .A)
  | _ => none

/-- `LoadByteSource::cycles`. -/
def LoadByteSource.cycles : LoadByteSource → Nat
  | .Register _ => 0
  | .D8 => 4
  | .HLI => 4

/-- `enum LoadWordSource`. -/
inductive LoadWordSource where
  | D16 | SP | HL
deriving Repr, DecidableEq

/-- `LoadWordSource::cycles`. -/
def LoadWordSource.cycles : LoadWordSource → Nat
  | .D16 => 4
  | .SP => 0
  | .HL => 0

/-- `enum LoadIndirectByteOperand`. -/
inductive LoadIndirectByteOperand where
  | Register (rr : U16Register)
  | HLI_incrementing
  | HLI_decrementing
  | Address
deriving Repr, DecidableEq

/-- `From<u8> for LoadIndirectByteOperand`. -/
def loadIndirectOfNat : Nat → Option LoadIndirectByteOperand
  | 0 => some (.Register .BC)
  | 1 => some (.Register .DE)
  | 2 => some .HLI_incrementing
  | 3 => some .HLI_decrementing
  | _ => none

/-- `LoadIndirectByteOperand::cycles`. -/
def LoadIndirectByteOperand.cycles : LoadIndirectByteOperand → Nat
  | .Register _ => 0
  | .HLI_incrementing => 0
  | .HLI_decrementing => 0
  | .Address => 8

/-- `enum LoadType`. -/
inductive LoadType where
  | Byte (tgt : LoadByteTarget) (src : LoadByteSource)
  | Word (tgt : LoadWordTarget) (src : LoadWordSource)
  | IndirectByteFromA (tgt : LoadIndirectByteOperand)
  | IndirectByteToA (src : LoadIndirectByteOperand)
  | IndirectWordFromSP
deriving Repr, DecidableEq

/-- `enum LdhOperand`. -/
inductive LdhOperand where
  | I8 | Ci
deriving Repr, DecidableEq

/-- `LdhOperand::cycles`. -/
def LdhOperand.cycles : LdhOperand → Nat
  | .I8 => 8
  | .Ci => 4

/-- `enum LdhDirection`. -/
inductive LdhDirection where
  | ToA | FromA
deriving Repr, DecidableEq

/-- `enum IncDec16Operand`. -/
inductive IncDec16Operand where
  | Register (rr : U16Register)
  | SP
deriving Repr, DecidableEq

/-- `From<u8> for IncDec16Operand`. -/
def incDec16OperandOfNat : Nat → Option IncDec16Operand
  | 0 => some (.Register .BC)
  | 1 => some (.Register .DE)
  | 2 => some (.Register .HL)
  | 3 => some .SP
  | _ => none

/-- `enum IncDecType`. -/
inductive IncDecType where
  | IncDec8 (operand : NonDirectArithmeticOperand)
  | IncDec16 (operand : IncDec16Operand)
deriving Repr, DecidableEq

/-- `enum Bit` (repr u8: the mask of the selected bit). -/
inductive Bit where
  | B0 | B1 | B2 | B3 | B4 | B5 | B6 | B7
deriving Repr, DecidableEq

/-- The `repr(u8)` value of a `Bit`. -/
def Bit.toU8 : Bit → Nat
  | .B0 => 1
  | .B1 => 2
  | .B2 => 4
  | .B3 => 8
  | .B4 => 16
  | .B5 => 32
  | .B6 => 64
  | .B7 => 128

/-- `From<u8> for Bit`. -/
def bitOfNat : Nat → Option Bit
  | 0 => some .B0
  | 1 => some .B1
  | 2 => some .B2
  | 3 => some .B3
  | 4 => some .B4
  | 5 => some .B5
  | 6 => some .B6
  | 7 => some .B7
  | _ => none

/-- `enum JumpCondition`. -/
inductive JumpCondition where
  | Unconditional | NZ | Z | NC | C
deriving Repr, DecidableEq

/-- `enum Instruction`. -/
inductive Instruction where
  | NOP
  | ADD (operand : ArithmeticOperand)
  | ADC (operand : ArithmeticOperand)
  | SUB (operand : ArithmeticOperand)
  | SBC (operand : ArithmeticOperand)
  | AND (operand : ArithmeticOperand)
  | XOR (operand : ArithmeticOperand)
  | OR (operand : ArithmeticOperand)
  | CP (operand : ArithmeticOperand)
  | INC (t : IncDecType)
  | DEC (t : IncDecType)
  | ADD16 (source : ArithmeticWordSource)
  | ADD16SP
  | ADD16SPinHL
  | LD (t : LoadType)
  | LDH (operand : LdhOperand) (direction : LdhDirection)
  | SWAP (operand : NonDirectArithmeticOperand)
  | BIT (bit : Bit) (operand : NonDirectArithmeticOperand)
  | RES (bit : Bit) (operand : NonDirectArithmeticOperand)
  | SET (bit : Bit) (operand : NonDirectArithmeticOperand)
  | RLCA
  | RLA
  | RL (operand : NonDirectArithmeticOperand)
  | RLC (operand : NonDirectArithmeticOperand)
  | RRCA
  | RRA
  | RR (operand : NonDirectArithmeticOperand)
  | RRC (operand : NonDirectArithmeticOperand)
  | SLA (operand : NonDirectArithmeticOperand)
  | SRA (operand : NonDirectArithmeticOperand)
  | SRL (operand : NonDirectArithmeticOperand)
  | DAA
  | CPL
  | SCF
  | CCF
  | JP (condition : JumpCondition)
  | JPHL
  | JR (condition : JumpCondition)
  | CALL (condition : JumpCondition)
  | RST (n : Nat)
  | RET (condition : JumpCondition)
  | RETI
  | PUSH (register : U16Register)
  | POP (register : U16Register)
  | DI
  | EI
  | HALT
deriving Repr, DecidableEq

namespace Instruction

/-- `Instruction::from_byte_prefixed` (the 0xCB table). -/
def fromBytePrefixed (b : Nat) : Option Instruction :=
  if b ≤ 0x07 then (nonDirectOfNat (b &&& 0b111)).map RLC
  else if b ≤ 0x0F then (nonDirectOfNat (b &&& 0b111)).map RRC
  else if b ≤ 0x17 then (nonDirectOfNat (b &&& 0b111)).map RL
  else if b ≤ 0x1F then (nonDirectOfNat (b &&& 0b111)).map RR
  else if b ≤ 0x27 then (nonDirectOfNat (b &&& 0b111)).map SLA
  else if b ≤ 0x2F then (nonDirectOfNat (b &&& 0b111)).map SRA
  else if b ≤ 0x37 then (nonDirectOfNat (b &&& 0b111)).map SWAP
  else if b ≤ 0x3F then (nonDirectOfNat (b &&& 0b111)).map SRL
  else if b ≤ 0x7F then
    (bitOfNat ((b &&& 0b111000) >>> 3)).bind fun bit =>
    (nonDirectOfNat (b &&& 0b111)).map fun r => BIT bit r
  else if b ≤ 0xBF then
    (bitOfNat ((b &&& 0b111000) >>> 3)).bind fun bit =>
    (nonDirectOfNat (b &&& 0b111)).map fun r => RES bit r
  else if b ≤ 0xFF then
    (bitOfNat ((b &&& 0b111000) >>> 3)).bind fun bit =>
    (nonDirectOfNat (b &&& 0b111)).map fun r => SET bit r
  else none

/-- `Instruction::from_byte_nonprefixed`; the Rust `match` arms are
kept in source order (the guarded range patterns become guarded
if-branches). -/
def fromByteNonprefixed (b : Nat) : Option Instruction :=
  if b = 0x00 then some NOP
  else if 0x01 ≤ b ∧ b ≤ 0x3F ∧ b &&& 0b111 = 0b110 then
    (loadByteTargetOfNat ((b &&& 0b111000) >>> 3)).map fun tgt =>
      LD (.Byte tgt .D8)
  else if 0x01 ≤ b ∧ b ≤ 0x3F ∧ b &&& 0b1111 = 0b0001 then
    (loadWordTargetOfNat ((b &&& 0b110000) >>> 4)).map fun tgt =>
      LD (.Word tgt .D16)
  else if 0x03 ≤ b ∧ b ≤ 0x33 ∧ b &&& 0b1111 = 0b0011 then
    (incDec16OperandOfNat ((b &&& 0b110000) >>> 4)).map fun r =>
      INC (.IncDec16 r)
  else if 0x0B ≤ b ∧ b ≤ 0x3B ∧ b &&& 0b1111 = 0b1011 then
    (incDec16OperandOfNat ((b &&& 0b110000) >>> 4)).map fun r =>
      DEC (.IncDec16 r)
  else if 0x04 ≤ b ∧ b ≤ 0x3C ∧ b &&& 0b111 = 0b100 then
    (nonDirectOfNat ((b &&& 0b111000) >>> 3)).map fun r =>
      INC (.IncDec8 r)
  else if 0x05 ≤ b ∧ b ≤ 0x3D ∧ b &&& 0b111 = 0b101 then
    (nonDirectOfNat ((b &&& 0b111000) >>> 3)).map fun r =>
      DEC (.IncDec8 r)
  else if 0x09 ≤ b ∧ b ≤ 0x39 ∧ b &&& 0b1111 = 0b1001 then
    (arithmeticWordSourceOfNat ((b &&& 0b110000) >>> 4)).map ADD16
  else if b = 0x76 then some HALT
  else if 0x40 ≤ b ∧ b ≤ 0x7F then
    (loadByteTargetOfNat ((b &&& 0b111000) >>> 3)).bind fun tgt =>
    (loadByteSourceOfNat (b &&& 0b111)).map fun src => LD (.Byte tgt src)
  else if b = 0x02 ∨ b = 0x12 ∨ b = 0x22 ∨ b = 0x32 then
    (loadIndirectOfNat ((b &&& 0b110000) >>> 4)).map fun tgt =>
      LD (.IndirectByteFromA tgt)
  else if b = 0x08 then some (LD .IndirectWordFromSP)
  else if b = 0x0A ∨ b = 0x1A ∨ b = 0x2A ∨ b = 0x3A then
    (loadIndirectOfNat ((b &&& 0b110000) >>> 4)).map fun src =>
      LD (.IndirectByteToA src)
  else if b = 0x07 then some RLCA
  else if b = 0x17 then some RLA
  else if b = 0x0F then some RRCA
  else if b = 0x1F then some RRA
  else if b = 0x18 then some (JR .Unconditional)
  else if b = 0x20 then some (JR .NZ)
  else if b = 0x28 then some (JR .Z)
  else if b = 0x30 then some (JR .NC)
  else if b = 0x38 then some (JR .C)
  else if b = 0x27 then some DAA
  else if b = 0x2F then some CPL
  else if b = 0x37 then some SCF
  else if b = 0x3F then some CCF
  else if 0x80 ≤ b ∧ b ≤ 0x87 then (arithmeticOperandOfNat (b &&& 0b111)).map ADD
  else if 0x88 ≤ b ∧ b ≤ 0x8F then (arithmeticOperandOfNat (b &&& 0b111)).map ADC
  else if 0x90 ≤ b ∧ b ≤ 0x97 then (arithmeticOperandOfNat (b &&& 0b111)).map SUB
  else if 0x98 ≤ b ∧ b ≤ 0x9F then (arithmeticOperandOfNat (b &&& 0b111)).map SBC
  else if 0xA0 ≤ b ∧ b ≤ 0xA7 then (arithmeticOperandOfNat (b &&& 0b111)).map AND
  else if 0xA8 ≤ b ∧ b ≤ 0xAF then (arithmeticOperandOfNat (b &&& 0b111)).map XOR
  else if 0xB0 ≤ b ∧ b ≤ 0xB7 then (arithmeticOperandOfNat (b &&& 0b111)).map OR
  else if 0xB8 ≤ b ∧ b ≤ 0xBF then (arithmeticOperandOfNat (b &&& 0b111)).map CP
  else if b = 0xC1 then some (POP .BC)
  else if b = 0xD1 then some (POP .DE)
  else if b = 0xE1 then some (POP .HL)
  else if b = 0xF1 then some (POP .AF)
  else if b = 0xC5 then some (PUSH .BC)
  else if b = 0xD5 then some (PUSH .DE)
  else if b = 0xE5 then some (PUSH .HL)
  else if b = 0xF5 then some (PUSH .AF)
  else if b = 0xC2 then some (JP .NZ)
  else if b = 0xC3 then some (JP .Unconditional)
  else if b = 0xCA then some (JP .Z)
  else if b = 0xD2 then some (JP .NC)
  else if b = 0xDA then some (JP .C)
  else if b = 0xCD then some (CALL .Unconditional)
  else if b = 0xC4 then some (CALL .NZ)
  else if b = 0xCC then some (CALL .Z)
  else if b = 0xD4 then some (CALL .NC)
  else if b = 0xDC then some (CALL .C)
  else if b = 0xC7 ∨ b = 0xCF ∨ b = 0xD7 ∨ b = 0xDF ∨ b = 0xE7
          ∨ b = 0xEF ∨ b = 0xF7 ∨ b = 0xFF then
    some (RST (b &&& 0x38))
  else if b = 0xC9 then some (RET .Unconditional)
  else if b = 0xC0 then some (RET .NZ)
  else if b = 0xC8 then some (RET .Z)
  else if b = 0xD0 then some (RET .NC)
  else if b = 0xD8 then some (RET .C)
  else if b = 0xD9 then some RETI
  else if b = 0xE0 then some (LDH .I8 .FromA)
  else if b = 0xF0 then some (LDH .I8 .ToA)
  else if b = 0xE2 then some (LDH .Ci .FromA)
  else if b = 0xF2 then some (LDH .Ci .ToA)
  else if b = 0xF3 then some DI
  else if b = 0xF8 then some ADD16SPinHL
  else if b = 0xF9 then some (LD (.Word .SP .HL))
  else if b = 0xFB then some EI
  else if b = 0xC6 then some (ADD .D8)
  else if b = 0xCE then some (ADC .D8)
  else if b = 0xD6 then some (SUB .D8)
  else if b = 0xDE then some (SBC .D8)
  else if b = 0xE6 then some (AND .D8)
  else if b = 0xEE then some (XOR .D8)
  else if b = 0xF6 then some (OR .D8)
  else if b = 0xFE then some (CP .D8)
  else if b = 0xE8 then some ADD16SP
  else if b = 0xE9 then some JPHL
  else if b = 0xEA then some (LD (.IndirectByteFromA .Address))
  else if b = 0xFA then some (LD (.IndirectByteToA .Address))
  else none

/-- `Instruction::from_byte`. -/
def fromByte (b : Nat) (prefixed : Bool) : Option Instruction :=
  if prefixed then fromBytePrefixed b else fromByteNonprefixed b

end Instruction

/-- Sign extension of an i8 bit pattern into 16-bit wrap-around
arithmetic: `s as i8 as i16 as u16` for `s < 256`. -/
def sext8 (s : Nat) : Nat := if 128 ≤ s then s + 0xFF00 else s

namespace CPU

/-- Result of `CPU::execute`: new CPU state, memory, and T-cycle count. -/
structure ExecOut where
  cpu : CPU
  mem : CpuMem
  cycles : Nat

/-- `CPU::test_jump_condition`. -/
def testJumpCondition (cpu : CPU) : JumpCondition → Bool
  | .Unconditional => true
  | .NZ => cpu.registers.f &&& flagZero == 0
  | .Z => cpu.registers.f &&& flagZero != 0
  | .NC => cpu.registers.f &&& flagCarry == 0
  | .C => cpu.registers.f &&& flagCarry != 0

/-- `CPU::push`: `self.sp -= 2` wraps modulo 2^16, then the value is
written at the wrapped address. -/
def push (cpu : CPU) (mem : CpuMem) (value : Nat) : CPU × CpuMem :=
  let sp := u16 (cpu.sp + 0x10000 - 2)
  ({ cpu with sp }, mem.write16 sp value)

/-- `CPU::pop`: read at SP, then `self.sp += 2` wraps modulo 2^16. -/
def pop (cpu : CPU) (mem : CpuMem) : Nat × CPU :=
  (mem.read16 cpu.sp, { cpu with sp := u16 (cpu.sp + 2) })

/-- `CPU::load_arithmetic_operand` (D8 advances PC). -/
def loadArithmeticOperand (cpu : CPU) (mem : CpuMem) :
    ArithmeticOperand → Nat × CPU
  | .Register r => (cpu.registers.read8 r, cpu)
  | .HLI => (mem.read8 (cpu.registers.read16 .HL), cpu)
  | .D8 => (mem.read8 cpu.pc, { cpu with pc := u16 (cpu.pc + 1) })

/-- `CPU::load_non_direct_arithmetic_operand`. -/
def loadNonDirectArithmeticOperand (cpu : CPU) (mem : CpuMem) :
    NonDirectArithmeticOperand → Nat
  | .Register r => cpu.registers.read8 r
  | .HLI => mem.read8 (cpu.registers.read16 .HL)

/-- `CPU::write_non_direct_arithmetic_operand`. -/
def writeNonDirectArithmeticOperand (cpu : CPU) (mem : CpuMem)
    (operand : NonDirectArithmeticOperand) (value : Nat) : CPU × CpuMem :=
  match operand with
  | .Register r =>
    ({ cpu with registers := cpu.registers.write8 r value }, mem)
  | .HLI => (cpu, mem.write8 (cpu.registers.read16 .HL) value)

/-- `CPU::load_arithmetic_word_source`. -/
def loadArithmeticWordSource (cpu : CPU) : ArithmeticWordSource → Nat
  | .BC => cpu.registers.read16 .BC
  | .DE => cpu.registers.read16 .DE
  | .HL => cpu.registers.read16 .HL
  | .SP => cpu.sp

/-- `CPU::load_inc_dec_16_operand`. -/
def loadIncDec16Operand (cpu : CPU) : IncDec16Operand → Nat
  | .Register rr => cpu.registers.read16 rr
  | .SP => cpu.sp

/-- `CPU::write_inc_dec_16_operand`. -/
def writeIncDec16Operand (cpu : CPU) (operand : IncDec16Operand)
    (value : Nat) : CPU :=
  match operand with
  | .Register rr => { cpu with registers := cpu.registers.write16 rr value }
  | .SP => { cpu with sp := value }

/-- `CPU::execute`: one arm per `Instruction` variant, in source
order.  `u8`/`u16` mark the points where the Rust byte/word arithmetic
wraps. -/
def execute (cpu : CPU) (memory : CpuMem) : Instruction → ExecOut
  | .NOP => ⟨{ cpu with pc := u16 (cpu.pc + 1) }, memory, 4⟩
  | .ADD operand =>
    let cpu := { cpu with pc := u16 (cpu.pc + 1) }
    let cycles := operand.cycles + 4
    let (op, cpu) := loadArithmeticOperand cpu memory operand
    let a := cpu.registers.a
    let newA := u8 (a + op)
    let carry := decide (256 ≤ a + op)
    let halfCarry := decide (0xF < (a &&& 0xF) + (op &&& 0xF))
    let f0 := 0
    let f1 := if newA = 0 then f0 ||| flagZero else f0
    let f2 := if halfCarry then f1 ||| flagHalfCarry else f1
    let f3 := if carry then f2 ||| flagCarry else f2
    ⟨{ cpu with registers := { cpu.registers with a := newA, f := f3 } },
     memory, cycles⟩
  | .ADC operand =>
    let cpu := { cpu with pc := u16 (cpu.pc + 1) }
    let (op, cpu) := loadArithmeticOperand cpu memory operand
    let a := cpu.registers.a
    let oldCarry := cpu.registers.f &&& flagCarry != 0
    let na1 := u8 (a + op)
    let c1 := decide (256 ≤ a + op)
    let (newA, carry) :=
      if !oldCarry then (na1, c1)
      else (u8 (na1 + 1), c1 || decide (256 ≤ na1 + 1))
    let halfCarry :=
      decide (0xF < (a &&& 0xF) + (op &&& 0xF) + oldCarry.toNat)
    let f0 := 0
    let f1 := if newA = 0 then f0 ||| flagZero else f0
    let f2 := if halfCarry then f1 ||| flagHalfCarry else f1
    let f3 := if carry then f2 ||| flagCarry else f2
    ⟨{ cpu with registers := { cpu.registers with a := newA, f := f3 } },
     memory, 8⟩
  | .SUB operand =>
    let cpu := { cpu with pc := u16 (cpu.pc + 1) }
    let cycles := operand.cycles + 4
    let (op, cpu) := loadArithmeticOperand cpu memory operand
    let a := cpu.registers.a
    let newA := u8sub a op
    let carry := decide (a < op)
    let halfCarry := decide ((a &&& 0xF) < (op &&& 0xF))
    let f0 := flagSubtract
    let f1 := if newA = 0 then f0 ||| flagZero else f0
    let f2 := if halfCarry then f1 ||| flagHalfCarry else f1
    let f3 := if carry then f2 ||| flagCarry else f2
    ⟨{ cpu with registers := { cpu.registers with a := newA, f := f3 } },
     memory, cycles⟩
  | .SBC operand =>
    let cpu := { cpu with pc := u16 (cpu.pc + 1) }
    let cycles := operand.cycles + 4
    let (op, cpu) := loadArithmeticOperand cpu memory operand
    let a := cpu.registers.a
    let oldCarry := cpu.registers.f &&& flagCarry != 0
    let na1 := u8sub a op
    let c1 := decide (a < op)
    let (newA, carry) :=
      if !oldCarry then (na1, c1)
      else (u8sub na1 1, c1 || decide (na1 < 1))
    let halfCarry :=
      let a2 := u8sub (a &&& 0xF) (op &&& 0xF)
      let hc := decide ((a &&& 0xF) < (op &&& 0xF))
      if !oldCarry then hc else hc || decide (a2 < 1)
    let f0 := flagSubtract
    let f1 := if newA = 0 then f0 ||| flagZero else f0
    let f2 := if halfCarry then f1 ||| flagHalfCarry else f1
    let f3 := if carry then f2 ||| flagCarry else f2
    ⟨{ cpu with registers := { cpu.registers with a := newA, f := f3 } },
     memory, cycles⟩
  | .INC t =>
    let cpu := { cpu with pc := u16 (cpu.pc + 1) }
    match t with
    | .IncDec8 operand =>
      let value := loadNonDirectArithmeticOperand cpu memory operand
      let new := u8 (value + 1)
      let (cpu, memory) :=
        writeNonDirectArithmeticOperand cpu memory operand new
      let f0 := cpu.registers.f &&& flagCarry
      let f1 := if new = 0 then f0 ||| flagZero else f0
      let f2 := if value &&& 0x0F = 0x0F then f1 ||| flagHalfCarry else f1
      ⟨{ cpu with registers := { cpu.registers with f := f2 } }, memory,
       4 + operand.cycles⟩
    | .IncDec16 operand =>
      let value := loadIncDec16Operand cpu operand
      let new := u16 (value + 1)
      ⟨writeIncDec16Operand cpu operand new, memory, 8⟩
  | .DEC t =>
    let cpu := { cpu with pc := u16 (cpu.pc + 1) }
    match t with
    | .IncDec8 operand =>
      let value := loadNonDirectArithmeticOperand cpu memory operand
      let new := u8sub value 1
      let (cpu, memory) :=
        writeNonDirectArithmeticOperand cpu memory operand new
      let f0 := (cpu.registers.f &&& flagCarry) ||| flagSubtract
      let f1 := if new = 0 then f0 ||| flagZero else f0
      let f2 := if value &&& 0x0F = 0x00 then f1 ||| flagHalfCarry else f1
      ⟨{ cpu with registers := { cpu.registers with f := f2 } }, memory,
       4 + operand.cycles⟩
    | .IncDec16 operand =>
      let value := loadIncDec16Operand cpu operand
      let new := u16 (value + 0xFFFF)
      ⟨writeIncDec16Operand cpu operand new, memory, 8⟩
  | .ADD16 source =>
    let cpu := { cpu with pc := u16 (cpu.pc + 1) }
    let hl := cpu.registers.read16 .HL
    let op := loadArithmeticWordSource cpu source
    let newHl := u16 (hl + op)
    let carry := decide (65536 ≤ hl + op)
    let cpu := { cpu with registers := cpu.registers.write16 .HL newHl }
    let halfCarry := decide (0xFFF < (hl &&& 0xFFF) + (op &&& 0xFFF))
    let f0 := cpu.registers.f &&& flagZero
    let f1 := if halfCarry then f0 ||| flagHalfCarry else f0
    let f2 := if carry then f1 ||| flagCarry else f1
    ⟨{ cpu with registers := { cpu.registers with f := f2 } }, memory, 8⟩
  | .ADD16SP =>
    let cpu := { cpu with pc := u16 (cpu.pc + 1) }
    let s := memory.read8 cpu.pc
    let cpu := { cpu with pc := u16 (cpu.pc + 1) }
    let carry := decide (256 ≤ u8 cpu.sp + s)
    let newSp := u16 (cpu.sp + sext8 s)
    let f0 := 0
    let f1 := if 0xF < (u8 cpu.sp &&& 0xF) + (s &&& 0xF) then
                f0 ||| flagHalfCarry
              else f0
    let f2 := if carry then f1 ||| flagCarry else f1
    ⟨{ cpu with sp := newSp,
                registers := { cpu.registers with f := f2 } }, memory, 16⟩
  | .ADD16SPinHL =>
    let cpu := { cpu with pc := u16 (cpu.pc + 1) }
    let s := memory.read8 cpu.pc
    let cpu := { cpu with pc := u16 (cpu.pc + 1) }
    let carry := decide (256 ≤ u8 cpu.sp + s)
    let newSp := u16 (cpu.sp + sext8 s)
    let cpu := { cpu with registers := cpu.registers.write16 .HL newSp }
    let f0 := 0
    let f1 := if 0xF < (u8 cpu.sp &&& 0xF) + (s &&& 0xF) then
                f0 ||| flagHalfCarry
              else f0
    let f2 := if carry then f1 ||| flagCarry else f1
    ⟨{ cpu with registers := { cpu.registers with f := f2 } }, memory, 12⟩
  | .AND operand =>
    let cpu := { cpu with pc := u16 (cpu.pc + 1) }
    let cycles := operand.cycles + 4
    let (op, cpu) := loadArithmeticOperand cpu memory operand
    let newA := cpu.registers.a &&& op
    let f := (if newA = 0 then flagZero else 0) ||| flagHalfCarry
    ⟨{ cpu with registers := { cpu.registers with a := newA, f := f } },
     memory, cycles⟩
  | .XOR operand =>
    let cpu := { cpu with pc := u16 (cpu.pc + 1) }
    let cycles := operand.cycles + 4
    let (op, cpu) := loadArithmeticOperand cpu memory operand
    let newA := cpu.registers.a ^^^ op
    let f := if newA = 0 then flagZero else 0
    ⟨{ cpu with registers := { cpu.registers with a := newA, f := f } },
     memory, cycles⟩
  | .OR operand =>
    let cpu := { cpu with pc := u16 (cpu.pc + 1) }
    let cycles := operand.cycles + 4
    let (op, cpu) := loadArithmeticOperand cpu memory operand
    let newA := cpu.registers.a ||| op
    let f := if newA = 0 then flagZero else 0
    ⟨{ cpu with registers := { cpu.registers with a := newA, f := f } },
     memory, cycles⟩
  | .CP operand =>
    let cpu := { cpu with pc := u16 (cpu.pc + 1) }
    let cycles := operand.cycles + 4
    let (op, cpu) := loadArithmeticOperand cpu memory operand
    let a := cpu.registers.a
    let cp := u8sub a op
    let carry := decide (a < op)
    let halfCarry := decide ((a &&& 0xF) < (op &&& 0xF))
    let f0 := flagSubtract
    let f1 := if cp = 0 then f0 ||| flagZero else f0
    let f2 := if halfCarry then f1 ||| flagHalfCarry else f1
    let f3 := if carry then f2 ||| flagCarry else f2
    ⟨{ cpu with registers := { cpu.registers with f := f3 } }, memory,
     cycles⟩
  | .LD t =>
    match t with
    | .Byte tgt src =>
      let cpu := { cpu with pc := u16 (cpu.pc + 1) }
      let cycles := 4 + src.cycles + tgt.cycles
      let (value, cpu) :=
        match src with
        | .Register r => (cpu.registers.read8 r, cpu)
        | .D8 => (memory.read8 cpu.pc, { cpu with pc := u16 (cpu.pc + 1) })
        | .HLI => (memory.read8 (cpu.registers.read16 .HL), cpu)
      match tgt with
      | .Register r =>
        ⟨{ cpu with registers := cpu.registers.write8 r value }, memory,
         cycles⟩
      | .HLI =>
        ⟨cpu, memory.write8 (cpu.registers.read16 .HL) value, cycles⟩
    | .Word tgt src =>
      let cpu := { cpu with pc := u16 (cpu.pc + 1) }
      let cycles := src.cycles + 8
      let (value, cpu) :=
        match src with
        | .D16 => (memory.read16 cpu.pc, { cpu with pc := u16 (cpu.pc + 2) })
        | .SP => (cpu.sp, cpu)
        | .HL => (cpu.registers.read16 .HL, cpu)
      match tgt with
      | .Register rr =>
        ⟨{ cpu with registers := cpu.registers.write16 rr value }, memory,
         cycles⟩
      | .SP => ⟨{ cpu with sp := value }, memory, cycles⟩
    | .IndirectByteFromA tgt =>
      let cpu := { cpu with pc := u16 (cpu.pc + 1) }
      let value := cpu.registers.a
      let (address, cpu) :=
        match tgt with
        | .Register rr => (cpu.registers.read16 rr, cpu)
        | .HLI_incrementing =>
          let hl := cpu.registers.read16 .HL
          (hl, { cpu with
                   registers := cpu.registers.write16 .HL (u16 (hl + 1)) })
        | .HLI_decrementing =>
          let hl := cpu.registers.read16 .HL
          (hl, { cpu with
                   registers := cpu.registers.write16 .HL
                     (u16 (hl + 0xFFFF)) })
        | .Address =>
          (memory.read16 cpu.pc, { cpu with pc := u16 (cpu.pc + 2) })
      ⟨cpu, memory.write8 address value, tgt.cycles + 8⟩
    | .IndirectByteToA src =>
      let cpu := { cpu with pc := u16 (cpu.pc + 1) }
      let (address, cpu) :=
        match src with
        | .Register rr => (cpu.registers.read16 rr, cpu)
        | .HLI_incrementing =>
          let hl := cpu.registers.read16 .HL
          (hl, { cpu with
                   registers := cpu.registers.write16 .HL (u16 (hl + 1)) })
        | .HLI_decrementing =>
          let hl := cpu.registers.read16 .HL
          (hl, { cpu with
                   registers := cpu.registers.write16 .HL
                     (u16 (hl + 0xFFFF)) })
        | .Address =>
          (memory.read16 cpu.pc, { cpu with pc := u16 (cpu.pc + 2) })
      ⟨{ cpu with
           registers := { cpu.registers with a := memory.read8 address } },
       memory, src.cycles + 8⟩
    | .IndirectWordFromSP =>
      let cpu := { cpu with pc := u16 (cpu.pc + 1) }
      let address := memory.read16 cpu.pc
      let cpu := { cpu with pc := u16 (cpu.pc + 2) }
      ⟨cpu, memory.write16 address cpu.sp, 20⟩
  | .LDH operand direction =>
    let cpu := { cpu with pc := u16 (cpu.pc + 1) }
    let (address, cpu) :=
      match operand with
      | .I8 =>
        (memory.read8 cpu.pc + 0xFF00, { cpu with pc := u16 (cpu.pc + 1) })
      | .Ci => (cpu.registers.c + 0xFF00, cpu)
    match direction with
    | .FromA =>
      ⟨cpu, memory.write8 address cpu.registers.a, operand.cycles + 4⟩
    | .ToA =>
      ⟨{ cpu with
           registers := { cpu.registers with a := memory.read8 address } },
       memory, operand.cycles + 4⟩
  | .RLCA =>
    let cpu := { cpu with pc := u16 (cpu.pc + 1) }
    let a := cpu.registers.a
    let carry := a &&& 0x80 != 0
    let a := u8 (a <<< 1)
    let a := if carry then a ||| 1 else a
    let f := if carry then flagCarry else 0
    ⟨{ cpu with registers := { cpu.registers with a := a, f := f } },
     memory, 4⟩
  | .RLA =>
    let cpu := { cpu with pc := u16 (cpu.pc + 1) }
    let a := cpu.registers.a
    let carry := a &&& 0x80 != 0
    let a := u8 (a <<< 1)
    let a := if cpu.registers.f &&& flagCarry != 0 then a ||| 1 else a
    let f := if carry then flagCarry else 0
    ⟨{ cpu with registers := { cpu.registers with a := a, f := f } },
     memory, 4⟩
  | .RL r =>
    let cpu := { cpu with pc := u16 (cpu.pc + 2) }
    let v := loadNonDirectArithmeticOperand cpu memory r
    let carry := v &&& 0x80 != 0
    let v := u8 (v <<< 1)
    let v := if cpu.registers.f &&& flagCarry != 0 then v ||| 1 else v
    let (cpu, memory) := writeNonDirectArithmeticOperand cpu memory r v
    let f0 := 0
    let f1 := if v = 0 then f0 ||| flagZero else f0
    let f2 := if carry then f1 ||| flagCarry else f1
    ⟨{ cpu with registers := { cpu.registers with f := f2 } }, memory,
     r.cycles + 8⟩
  | .RLC r =>
    let cpu := { cpu with pc := u16 (cpu.pc + 2) }
    let v := loadNonDirectArithmeticOperand cpu memory r
    let carry := v &&& 0x80 != 0
    let v := u8 (v <<< 1)
    let v := if carry then v ||| 1 else v
    let (cpu, memory) := writeNonDirectArithmeticOperand cpu memory r v
    let f0 := 0
    let f1 := if v = 0 then f0 ||| flagZero else f0
    let f2 := if carry then f1 ||| flagCarry else f1
    ⟨{ cpu with registers := { cpu.registers with f := f2 } }, memory,
     r.cycles + 8⟩
  | .SLA r =>
    let cpu := { cpu with pc := u16 (cpu.pc + 2) }
    let v := loadNonDirectArithmeticOperand cpu memory r
    let carry := v &&& 0x80 != 0
    let v := u8 (v <<< 1)
    let (cpu, memory) := writeNonDirectArithmeticOperand cpu memory r v
    let f0 := 0
    let f1 := if v = 0 then f0 ||| flagZero else f0
    let f2 := if carry then f1 ||| flagCarry else f1
    ⟨{ cpu with registers := { cpu.registers with f := f2 } }, memory,
     r.cycles + 8⟩
  | .RRCA =>
    let cpu := { cpu with pc := u16 (cpu.pc + 1) }
    let a := cpu.registers.a
    let carry := a &&& 0x01 != 0
    let a := a >>> 1
    let a := if carry then a ||| 0x80 else a
    let f := if carry then flagCarry else 0
    ⟨{ cpu with registers := { cpu.registers with a := a, f := f } },
     memory, 4⟩
  | .RRA =>
    let cpu := { cpu with pc := u16 (cpu.pc + 1) }
    let a := cpu.registers.a
    let carry := a &&& 0x01 != 0
    let a := a >>> 1
    let a := if cpu.registers.f &&& flagCarry != 0 then a ||| 0x80 else a
    let f := if carry then flagCarry else 0
    ⟨{ cpu with registers := { cpu.registers with a := a, f := f } },
     memory, 4⟩
  | .RR r =>
    let cpu := { cpu with pc := u16 (cpu.pc + 2) }
    let v := loadNonDirectArithmeticOperand cpu memory r
    let carry := v &&& 0x01 != 0
    let v := v >>> 1
    let v := if cpu.registers.f &&& flagCarry != 0 then v ||| 0x80 else v
    let (cpu, memory) := writeNonDirectArithmeticOperand cpu memory r v
    let f0 := 0
    let f1 := if v = 0 then f0 ||| flagZero else f0
    let f2 := if carry then f1 ||| flagCarry else f1
    ⟨{ cpu with registers := { cpu.registers with f := f2 } }, memory,
     r.cycles + 8⟩
  | .RRC r =>
    let cpu := { cpu with pc := u16 (cpu.pc + 2) }
    let v := loadNonDirectArithmeticOperand cpu memory r
    let carry := v &&& 0x01 != 0
    let v := v >>> 1
    let v := if carry then v ||| 0x80 else v
    let (cpu, memory) := writeNonDirectArithmeticOperand cpu memory r v
    let f0 := 0
    let f1 := if v = 0 then f0 ||| flagZero else f0
    let f2 := if carry then f1 ||| flagCarry else f1
    ⟨{ cpu with registers := { cpu.registers with f := f2 } }, memory,
     r.cycles + 8⟩
  | .SRA r =>
    let cpu := { cpu with pc := u16 (cpu.pc + 2) }
    let v := loadNonDirectArithmeticOperand cpu memory r
    let carry := v &&& 0x01 != 0
    let b7 := v &&& 0x80
    let v := (v >>> 1) ||| b7
    let (cpu, memory) := writeNonDirectArithmeticOperand cpu memory r v
    let f0 := 0
    let f1 := if v = 0 then f0 ||| flagZero else f0
    let f2 := if carry then f1 ||| flagCarry else f1
    ⟨{ cpu with registers := { cpu.registers with f := f2 } }, memory,
     r.cycles + 8⟩
  | .SRL r =>
    let cpu := { cpu with pc := u16 (cpu.pc + 2) }
    let v := loadNonDirectArithmeticOperand cpu memory r
    let carry := v &&& 0x01 != 0
    let v := v >>> 1
    let (cpu, memory) := writeNonDirectArithmeticOperand cpu memory r v
    let f0 := 0
    let f1 := if v = 0 then f0 ||| flagZero else f0
    let f2 := if carry then f1 ||| flagCarry else f1
    ⟨{ cpu with registers := { cpu.registers with f := f2 } }, memory,
     r.cycles + 8⟩
  | .SWAP r =>
    let cpu := { cpu with pc := u16 (cpu.pc + 2) }
    let v := loadNonDirectArithmeticOperand cpu memory r
    let v := (v >>> 4) ||| u8 (v <<< 4)
    let (cpu, memory) := writeNonDirectArithmeticOperand cpu memory r v
    let f := if v = 0 then flagZero else 0
    ⟨{ cpu with registers := { cpu.registers with f := f } }, memory,
     r.cycles + 8⟩
  | .BIT bit r =>
    let cpu := { cpu with pc := u16 (cpu.pc + 2) }
    let v := loadNonDirectArithmeticOperand cpu memory r
    let set := v &&& bit.toU8 != 0
    let f := cpu.registers.f
    let f1 := if set then f &&& u8not flagZero else f ||| flagZero
    let mask := flagSubtract ||| flagHalfCarry
    let f2 := (f1 &&& u8not mask) ||| flagHalfCarry
    ⟨{ cpu with registers := { cpu.registers with f := f2 } }, memory,
     r.cycles + 8⟩
  | .RES bit r =>
    let cpu := { cpu with pc := u16 (cpu.pc + 2) }
    let v := loadNonDirectArithmeticOperand cpu memory r &&& u8not bit.toU8
    let (cpu, memory) := writeNonDirectArithmeticOperand cpu memory r v
    ⟨cpu, memory, r.cycles + 8⟩
  | .SET bit r =>
    let cpu := { cpu with pc := u16 (cpu.pc + 2) }
    let v := loadNonDirectArithmeticOperand cpu memory r ||| bit.toU8
    let (cpu, memory) := writeNonDirectArithmeticOperand cpu memory r v
    ⟨cpu, memory, r.cycles + 8⟩
  | .DAA =>
    let cpu := { cpu with pc := u16 (cpu.pc + 1) }
    let f := cpu.registers.f
    let adj0 := 0
    let adj1 := if f &&& flagHalfCarry != 0 then adj0 ||| 0x06 else adj0
    let adj2 := if f &&& flagCarry != 0 then adj1 ||| 0x60 else adj1
    let a := cpu.registers.a
    let (newA, adj) :=
      if f &&& flagSubtract != 0 then (u8sub a adj2, adj2)
      else
        let adj3 := if 0x09 < a &&& 0x0F then adj2 ||| 0x06 else adj2
        let adj4 := if 0x99 < a then adj3 ||| 0x60 else adj3
        (u8 (a + adj4), adj4)
    let f0 := f &&& flagSubtract
    let f1 := if newA = 0 then f0 ||| flagZero else f0
    let f2 := if adj &&& 0x60 != 0 then f1 ||| flagCarry else f1
    ⟨{ cpu with registers := { cpu.registers with a := newA, f := f2 } },
     memory, 4⟩
  | .CPL =>
    let cpu := { cpu with pc := u16 (cpu.pc + 1) }
    let a := u8not cpu.registers.a
    let mask := flagSubtract ||| flagHalfCarry
    let registers := { cpu.registers with a := a, f := cpu.registers.f ||| mask }
    ⟨{ cpu with registers := registers }, memory, 4⟩
  | .SCF =>
    let cpu := { cpu with pc := u16 (cpu.pc + 1) }
    let f := (cpu.registers.f &&& flagZero) ||| flagCarry
    ⟨{ cpu with registers := { cpu.registers with f := f } }, memory, 4⟩
  | .CCF =>
    let cpu := { cpu with pc := u16 (cpu.pc + 1) }
    let f := (cpu.registers.f ^^^ flagCarry) &&& (flagZero ||| flagCarry)
    ⟨{ cpu with registers := { cpu.registers with f := f } }, memory, 4⟩
  | .JP condition =>
    let nn := memory.read16 (u16 (cpu.pc + 1))
    let cpu := { cpu with pc := u16 (cpu.pc + 3) }
    if testJumpCondition cpu condition then
      ⟨{ cpu with pc := nn }, memory, 16⟩
    else ⟨cpu, memory, 12⟩
  | .JPHL =>
    ⟨{ cpu with pc := cpu.registers.read16 .HL }, memory, 4⟩
  | .JR condition =>
    let e := memory.read8 (u16 (cpu.pc + 1))
    let cpu := { cpu with pc := u16 (cpu.pc + 2) }
    if testJumpCondition cpu condition then
      ⟨{ cpu with pc := u16 (cpu.pc + sext8 e) }, memory, 12⟩
    else ⟨cpu, memory, 8⟩
  | .CALL condition =>
    let nn := memory.read16 (u16 (cpu.pc + 1))
    let cpu := { cpu with pc := u16 (cpu.pc + 3) }
    if testJumpCondition cpu condition then
      let (cpu, memory) := push cpu memory cpu.pc
      ⟨{ cpu with pc := nn }, memory, 6 * 4⟩
    else ⟨cpu, memory, 3 * 4⟩
  | .RST n =>
    let cpu := { cpu with pc := u16 (cpu.pc + 1) }
    let (cpu, memory) := push cpu memory cpu.pc
    ⟨{ cpu with pc := n }, memory, 16⟩
  | .RET condition =>
    if testJumpCondition cpu condition then
      let (address, cpu) := pop cpu memory
      ⟨{ cpu with pc := address }, memory, 5 * 4⟩
    else ⟨{ cpu with pc := u16 (cpu.pc + 1) }, memory, 2 * 4⟩
  | .RETI =>
    let (address, cpu) := pop cpu memory
    ⟨{ cpu with pc := address, ime := true }, memory, 16⟩
  | .PUSH register =>
    let cpu := { cpu with pc := u16 (cpu.pc + 1) }
    let (cpu, memory) := push cpu memory (cpu.registers.read16 register)
    ⟨cpu, memory, 16⟩
  | .POP register =>
    let cpu := { cpu with pc := u16 (cpu.pc + 1) }
    let (value, cpu) := pop cpu memory
    ⟨{ cpu with registers := cpu.registers.write16 register value },
     memory, 12⟩
  | .DI =>
    ⟨{ cpu with pc := u16 (cpu.pc + 1), ime := false }, memory, 4⟩
  | .EI =>
    ⟨{ cpu with pc := u16 (cpu.pc + 1), ime := true }, memory, 4⟩
  | .HALT =>
    ⟨{ cpu with pc := u16 (cpu.pc + 1), halt := true }, memory, 4⟩

/-- `CPU::step`: when halted consume 4 T-cycles, otherwise decode at PC
(with the 0xCB prefix) and execute; a decode failure panics. -/
def step (cpu : CPU) (memory : CpuMem) : Option ExecOut :=
  if cpu.halt then some ⟨cpu, memory, 4⟩
  else
    let b0 := memory.read8 cpu.pc
    let prefixed := b0 == 0xCB
    let b := if prefixed then memory.read8 (cpu.pc + 1) else b0
    (Instruction.fromByte b prefixed).map fun instruction =>
      execute cpu memory instruction

end CPU



/-! ## F low-nibble invariant -/

theorem and15_eq_mod16 (x : Nat) : x &&& 15 = x % 16 := by
  have h := Nat.and_pow_two_sub_one_eq_mod x 4
  norm_num at h
  exact h

theorem low4_or {a b : Nat} (ha : a &&& 15 = 0) (hb : b &&& 15 = 0) :
    (a ||| b) &&& 15 = 0 := by
  rw [Nat.and_distrib_right, ha, hb]
  decide

theorem low4_and_right (a : Nat) {b : Nat} (hb : b &&& 15 = 0) :
    (a &&& b) &&& 15 = 0 := by
  rw [Nat.and_assoc, hb, Nat.and_zero]

theorem low4_and_left {a : Nat} (b : Nat) (ha : a &&& 15 = 0) :
    (a &&& b) &&& 15 = 0 := by
  rw [Nat.and_assoc, Nat.and_comm b 15, ← Nat.and_assoc, ha, Nat.zero_and]

theorem low4_ite (p : Prop) [Decidable p] {a b : Nat}
    (ha : a &&& 15 = 0) (hb : b &&& 15 = 0) :
    (if p then a else b) &&& 15 = 0 := by
  split <;> assumption

/-- Write targets that are not the F register (the decoder produces no
F write target). -/
def noFWrite : NonDirectArithmeticOperand → Bool
  | .Register .F => false
  | _ => true

/-- Load-byte targets that are not the F register. -/
def noFTarget : LoadByteTarget → Bool
  | .Register .F => false
  | _ => true

/-- Instructions that never write the F register raw: everything the
decoder can produce (its 3-bit register fields never map to F). -/
def okInstr : Instruction → Bool
  | .LD (.Byte tgt _) => noFTarget tgt
  | .INC (.IncDec8 op) => noFWrite op
  | .DEC (.IncDec8 op) => noFWrite op
  | .SWAP op => noFWrite op
  | .RES _ op => noFWrite op
  | .SET _ op => noFWrite op
  | .RL op => noFWrite op
  | .RLC op => noFWrite op
  | .RR op => noFWrite op
  | .RRC op => noFWrite op
  | .SLA op => noFWrite op
  | .SRA op => noFWrite op
  | .SRL op => noFWrite op
  | _ => true

theorem decode_ok_all :
    ∀ b : Nat, b < 256 → ∀ p : Bool,
      (Instruction.fromByte b p).all okInstr = true := by decide

theorem decode_ok {b : Nat} (hb : b < 256) (p : Bool) {i : Instruction}
    (h : Instruction.fromByte b p = some i) : okInstr i = true := by
  have h2 := decode_ok_all b hb p
  rw [h] at h2
  simpa [Option.all] using h2

theorem write8_f_eq {r : Registers} {reg : U8Register} {v : Nat}
    (h : reg ≠ U8Register.F) : (r.write8 reg v).f = r.f := by
  cases reg <;> first | rfl | exact absurd rfl h

theorem write16_f_low {r : Registers} {v : Nat} (rr : U16Register)
    (hf : r.f &&& 15 = 0) : (r.write16 rr v).f &&& 15 = 0 := by
  cases rr
  · exact low4_and_right _ (by decide)
  all_goals exact hf

set_option maxHeartbeats 2000000 in
/-- Every instruction the decoder can produce leaves the low nibble of
F at 0. -/
theorem execute_preserves_f_low4 (cpu : CPU) (mem : CpuMem)
    (i : Instruction) (hok : okInstr i = true)
    (hf : cpu.registers.f &&& 15 = 0) :
    (CPU.execute cpu mem i).cpu.registers.f &&& 15 = 0 := by
  cases i with
  | NOP => simp only [CPU.execute]; exact hf
  | ADD operand =>
    cases operand <;>
      · simp only [CPU.execute, CPU.loadArithmeticOperand]
        repeat first
          | exact hf
          | apply low4_ite
          | apply low4_or
          | apply low4_and_right
          | decide
  | ADC operand =>
    cases operand <;>
      · simp only [CPU.execute, CPU.loadArithmeticOperand]
        repeat first
          | exact hf
          | apply low4_ite
          | apply low4_or
          | apply low4_and_right
          | decide
  | SUB operand =>
    cases operand <;>
      · simp only [CPU.execute, CPU.loadArithmeticOperand]
        repeat first
          | exact hf
          | apply low4_ite
          | apply low4_or
          | apply low4_and_right
          | decide
  | SBC operand =>
    cases operand <;>
      · simp only [CPU.execute, CPU.loadArithmeticOperand]
        repeat first
          | exact hf
          | apply low4_ite
          | apply low4_or
          | apply low4_and_right
          | decide
  | AND operand =>
    cases operand <;>
      · simp only [CPU.execute, CPU.loadArithmeticOperand]
        repeat first
          | exact hf
          | apply low4_ite
          | apply low4_or
          | apply low4_and_right
          | decide
  | XOR operand =>
    cases operand <;>
      · simp only [CPU.execute, CPU.loadArithmeticOperand]
        repeat first
          | exact hf
          | apply low4_ite
          | apply low4_or
          | apply low4_and_right
          | decide
  | OR operand =>
    cases operand <;>
      · simp only [CPU.execute, CPU.loadArithmeticOperand]
        repeat first
          | exact hf
          | apply low4_ite
          | apply low4_or
          | apply low4_and_right
          | decide
  | CP operand =>
    cases operand <;>
      · simp only [CPU.execute, CPU.loadArithmeticOperand]
        repeat first
          | exact hf
          | apply low4_ite
          | apply low4_or
          | apply low4_and_right
          | decide
  | INC t =>
    cases t with
    | IncDec8 op =>
      cases op with
      | Register r =>
        cases r
        case F => exact Bool.noConfusion hok
        all_goals
          simp only [CPU.execute, CPU.loadNonDirectArithmeticOperand,
                     CPU.writeNonDirectArithmeticOperand, Registers.write8]
          repeat first
            | exact hf
            | apply low4_ite
            | apply low4_or
            | apply low4_and_right
            | decide
      | HLI =>
        simp only [CPU.execute, CPU.loadNonDirectArithmeticOperand,
                   CPU.writeNonDirectArithmeticOperand]
        repeat first
          | exact hf
          | apply low4_ite
          | apply low4_or
          | apply low4_and_right
          | decide
    | IncDec16 op =>
      cases op with
      | Register rr =>
        simp only [CPU.execute, CPU.loadIncDec16Operand,
                   CPU.writeIncDec16Operand]
        exact write16_f_low rr hf
      | SP => simp only [CPU.execute, CPU.loadIncDec16Operand, CPU.writeIncDec16Operand]; exact hf
  | DEC t =>
    cases t with
    | IncDec8 op =>
      cases op with
      | Register r =>
        cases r
        case F => exact Bool.noConfusion hok
        all_goals
          simp only [CPU.execute, CPU.loadNonDirectArithmeticOperand,
                     CPU.writeNonDirectArithmeticOperand, Registers.write8]
          repeat first
            | exact hf
            | apply low4_ite
            | apply low4_or
            | apply low4_and_right
            | decide
      | HLI =>
        simp only [CPU.execute, CPU.loadNonDirectArithmeticOperand,
                   CPU.writeNonDirectArithmeticOperand]
        repeat first
          | exact hf
          | apply low4_ite
          | apply low4_or
          | apply low4_and_right
          | decide
    | IncDec16 op =>
      cases op with
      | Register rr =>
        simp only [CPU.execute, CPU.loadIncDec16Operand,
                   CPU.writeIncDec16Operand]
        exact write16_f_low rr hf
      | SP => simp only [CPU.execute, CPU.loadIncDec16Operand, CPU.writeIncDec16Operand]; exact hf
  | ADD16 source =>
    simp only [CPU.execute, CPU.loadArithmeticWordSource, Registers.write16]
    repeat first
      | exact hf
      | apply low4_ite
      | apply low4_or
      | apply low4_and_right
      | decide
  | ADD16SP =>
    simp only [CPU.execute]
    repeat first
      | exact hf
      | apply low4_ite
      | apply low4_or
      | apply low4_and_right
      | decide
  | ADD16SPinHL =>
    simp only [CPU.execute, Registers.write16]
    repeat first
      | exact hf
      | apply low4_ite
      | apply low4_or
      | apply low4_and_right
      | decide
  | LD t =>
    cases t with
    | Byte tgt src =>
      cases src <;> cases tgt with
      | Register r =>
        cases r
        case F => exact Bool.noConfusion hok
        all_goals simp only [CPU.execute, Registers.write8]
        all_goals exact hf
      | HLI => simp only [CPU.execute]; exact hf
    | Word tgt src =>
      cases src <;> cases tgt with
      | Register rr =>
        simp only [CPU.execute]
        exact write16_f_low rr hf
      | SP => simp only [CPU.execute, CPU.loadIncDec16Operand, CPU.writeIncDec16Operand]; exact hf
    | IndirectByteFromA tgt => cases tgt <;> (simp only [CPU.execute]; exact hf)
    | IndirectByteToA src => cases src <;> (simp only [CPU.execute]; exact hf)
    | IndirectWordFromSP => simp only [CPU.execute]; exact hf
  | LDH operand direction =>
    cases operand <;> cases direction <;> (simp only [CPU.execute]; exact hf)
  | SWAP op =>
    cases op with
    | Register r =>
      cases r
      case F => exact Bool.noConfusion hok
      all_goals
        simp only [CPU.execute, CPU.loadNonDirectArithmeticOperand,
                   CPU.writeNonDirectArithmeticOperand, Registers.write8]
        repeat first
          | exact hf
          | apply low4_ite
          | apply low4_or
          | apply low4_and_right
          | decide
    | HLI =>
      simp only [CPU.execute, CPU.loadNonDirectArithmeticOperand,
                 CPU.writeNonDirectArithmeticOperand]
      repeat first
        | exact hf
        | apply low4_ite
        | apply low4_or
        | apply low4_and_right
        | decide
  | BIT bit r =>
    simp only [CPU.execute]
    exact low4_or
      (low4_and_left _
        (low4_ite _ (low4_and_left _ hf) (low4_or hf (by decide))))
      (by decide)
  | RES bit op =>
    cases op with
    | Register r =>
      cases r
      case F => exact Bool.noConfusion hok
      all_goals simp only [CPU.execute, CPU.writeNonDirectArithmeticOperand,
                           Registers.write8]
      all_goals exact hf
    | HLI =>
      simp only [CPU.execute, CPU.writeNonDirectArithmeticOperand]
      exact hf
  | SET bit op =>
    cases op with
    | Register r =>
      cases r
      case F => exact Bool.noConfusion hok
      all_goals simp only [CPU.execute, CPU.writeNonDirectArithmeticOperand,
                           Registers.write8]
      all_goals exact hf
    | HLI =>
      simp only [CPU.execute, CPU.writeNonDirectArithmeticOperand]
      exact hf
  | RLCA => simp only [CPU.execute]; apply low4_ite <;> decide
  | RLA => simp only [CPU.execute]; apply low4_ite <;> decide
  | RRCA => simp only [CPU.execute]; apply low4_ite <;> decide
  | RRA => simp only [CPU.execute]; apply low4_ite <;> decide
  | RL op =>
    cases op with
    | Register r =>
      cases r
      case F => exact Bool.noConfusion hok
      all_goals
        simp only [CPU.execute, CPU.loadNonDirectArithmeticOperand,
                   CPU.writeNonDirectArithmeticOperand, Registers.write8]
        repeat first
          | exact hf
          | apply low4_ite
          | apply low4_or
          | apply low4_and_right
          | decide
    | HLI =>
      simp only [CPU.execute, CPU.loadNonDirectArithmeticOperand,
                 CPU.writeNonDirectArithmeticOperand]
      repeat first
        | exact hf
        | apply low4_ite
        | apply low4_or
        | apply low4_and_right
        | decide
  | RLC op =>
    cases op with
    | Register r =>
      cases r
      case F => exact Bool.noConfusion hok
      all_goals
        simp only [CPU.execute, CPU.loadNonDirectArithmeticOperand,
                   CPU.writeNonDirectArithmeticOperand, Registers.write8]
        repeat first
          | exact hf
          | apply low4_ite
          | apply low4_or
          | apply low4_and_right
          | decide
    | HLI =>
      simp only [CPU.execute, CPU.loadNonDirectArithmeticOperand,
                 CPU.writeNonDirectArithmeticOperand]
      repeat first
        | exact hf
        | apply low4_ite
        | apply low4_or
        | apply low4_and_right
        | decide
  | RR op =>
    cases op with
    | Register r =>
      cases r
      case F => exact Bool.noConfusion hok
      all_goals
        simp only [CPU.execute, CPU.loadNonDirectArithmeticOperand,
                   CPU.writeNonDirectArithmeticOperand, Registers.write8]
        repeat first
          | exact hf
          | apply low4_ite
          | apply low4_or
          | apply low4_and_right
          | decide
    | HLI =>
      simp only [CPU.execute, CPU.loadNonDirectArithmeticOperand,
                 CPU.writeNonDirectArithmeticOperand]
      repeat first
        | exact hf
        | apply low4_ite
        | apply low4_or
        | apply low4_and_right
        | decide
  | RRC op =>
    cases op with
    | Register r =>
      cases r
      case F => exact Bool.noConfusion hok
      all_goals
        simp only [CPU.execute, CPU.loadNonDirectArithmeticOperand,
                   CPU.writeNonDirectArithmeticOperand, Registers.write8]
        repeat first
          | exact hf
          | apply low4_ite
          | apply low4_or
          | apply low4_and_right
          | decide
    | HLI =>
      simp only [CPU.execute, CPU.loadNonDirectArithmeticOperand,
                 CPU.writeNonDirectArithmeticOperand]
      repeat first
        | exact hf
        | apply low4_ite
        | apply low4_or
        | apply low4_and_right
        | decide
  | SLA op =>
    cases op with
    | Register r =>
      cases r
      case F => exact Bool.noConfusion hok
      all_goals
        simp only [CPU.execute, CPU.loadNonDirectArithmeticOperand,
                   CPU.writeNonDirectArithmeticOperand, Registers.write8]
        repeat first
          | exact hf
          | apply low4_ite
          | apply low4_or
          | apply low4_and_right
          | decide
    | HLI =>
      simp only [CPU.execute, CPU.loadNonDirectArithmeticOperand,
                 CPU.writeNonDirectArithmeticOperand]
      repeat first
        | exact hf
        | apply low4_ite
        | apply low4_or
        | apply low4_and_right
        | decide
  | SRA op =>
    cases op with
    | Register r =>
      cases r
      case F => exact Bool.noConfusion hok
      all_goals
        simp only [CPU.execute, CPU.loadNonDirectArithmeticOperand,
                   CPU.writeNonDirectArithmeticOperand, Registers.write8]
        repeat first
          | exact hf
          | apply low4_ite
          | apply low4_or
          | apply low4_and_right
          | decide
    | HLI =>
      simp only [CPU.execute, CPU.loadNonDirectArithmeticOperand,
                 CPU.writeNonDirectArithmeticOperand]
      repeat first
        | exact hf
        | apply low4_ite
        | apply low4_or
        | apply low4_and_right
        | decide
  | SRL op =>
    cases op with
    | Register r =>
      cases r
      case F => exact Bool.noConfusion hok
      all_goals
        simp only [CPU.execute, CPU.loadNonDirectArithmeticOperand,
                   CPU.writeNonDirectArithmeticOperand, Registers.write8]
        repeat first
          | exact hf
          | apply low4_ite
          | apply low4_or
          | apply low4_and_right
          | decide
    | HLI =>
      simp only [CPU.execute, CPU.loadNonDirectArithmeticOperand,
                 CPU.writeNonDirectArithmeticOperand]
      repeat first
        | exact hf
        | apply low4_ite
        | apply low4_or
        | apply low4_and_right
        | decide
  | DAA =>
    simp only [CPU.execute]
    repeat first
      | exact hf
      | apply low4_ite
      | apply low4_or
      | apply low4_and_right
      | decide
  | CPL =>
    simp only [CPU.execute]
    exact low4_or hf (by decide)
  | SCF =>
    simp only [CPU.execute]
    exact low4_or (low4_and_right _ (by decide)) (by decide)
  | CCF =>
    simp only [CPU.execute]
    exact low4_and_right _ (by decide)
  | JP condition =>
    simp only [CPU.execute]
    split <;> exact hf
  | JPHL => simp only [CPU.execute]; exact hf
  | JR condition =>
    simp only [CPU.execute]
    split <;> exact hf
  | CALL condition =>
    simp only [CPU.execute, CPU.push]
    split <;> exact hf
  | RST n => simp only [CPU.execute, CPU.push]; exact hf
  | RET condition =>
    simp only [CPU.execute, CPU.pop]
    split <;> exact hf
  | RETI => simp only [CPU.execute, CPU.pop]; exact hf
  | PUSH register => simp only [CPU.execute, CPU.push]; exact hf
  | POP register =>
    simp only [CPU.execute, CPU.pop]
    exact write16_f_low register hf
  | DI => simp only [CPU.execute]; exact hf
  | EI => simp only [CPU.execute]; exact hf
  | HALT => simp only [CPU.execute]; exact hf

/-- C4: after every CPU operation the decoder can produce (including
a PUSH AF / POP AF round-trip and every instruction that writes the
flags register), the low nibble of the F register equals 0, given it
was 0 before: the invariant is preserved by every step. -/
theorem f_low_nibble_always_zero (b0 : Nat) (p : Bool) (i : Instruction)
    (cpu : CPU) (mem : CpuMem) (hb : b0 < 256)
    (hdec : Instruction.fromByte b0 p = some i)
    (hf : cpu.registers.f % 16 = 0) :
    (CPU.execute cpu mem i).cpu.registers.f % 16 = 0 := by
  have hok := decode_ok hb p hdec
  rw [← and15_eq_mod16] at hf ⊢
  exact execute_preserves_f_low4 cpu mem i hok hf

/-- The all-zero byte store. -/
def memZero : CpuMem := fun _ => 0

/-- Witness for C4: POP AF (opcode 0xF1) from the initial CPU state. -/
theorem f_low_nibble_always_zero_witness :
    (CPU.execute CPU.new memZero (Instruction.POP .AF)).cpu.registers.f % 16
      = 0 :=
  f_low_nibble_always_zero 0xF1 false (Instruction.POP .AF) CPU.new memZero
    (by decide) (by decide) (by decide)


theorem flag_and_table :
    ((0:Nat) &&& 128 = 0) ∧
    ((0:Nat) &&& 64 = 0) ∧
    ((0:Nat) &&& 32 = 0) ∧
    ((0:Nat) &&& 16 = 0) ∧
    ((16:Nat) &&& 128 = 0) ∧
    ((16:Nat) &&& 64 = 0) ∧
    ((16:Nat) &&& 32 = 0) ∧
    ((16:Nat) &&& 16 = 16) ∧
    ((32:Nat) &&& 128 = 0) ∧
    ((32:Nat) &&& 64 = 0) ∧
    ((32:Nat) &&& 32 = 32) ∧
    ((32:Nat) &&& 16 = 0) ∧
    ((48:Nat) &&& 128 = 0) ∧
    ((48:Nat) &&& 64 = 0) ∧
    ((48:Nat) &&& 32 = 32) ∧
    ((48:Nat) &&& 16 = 16) ∧
    ((128:Nat) &&& 128 = 128) ∧
    ((128:Nat) &&& 64 = 0) ∧
    ((128:Nat) &&& 32 = 0) ∧
    ((128:Nat) &&& 16 = 0) ∧
    ((144:Nat) &&& 128 = 128) ∧
    ((144:Nat) &&& 64 = 0) ∧
    ((144:Nat) &&& 32 = 0) ∧
    ((144:Nat) &&& 16 = 16) ∧
    ((160:Nat) &&& 128 = 128) ∧
    ((160:Nat) &&& 64 = 0) ∧
    ((160:Nat) &&& 32 = 32) ∧
    ((160:Nat) &&& 16 = 0) ∧
    ((176:Nat) &&& 128 = 128) ∧
    ((176:Nat) &&& 64 = 0) ∧
    ((176:Nat) &&& 32 = 32) ∧
    ((176:Nat) &&& 16 = 16) := by
  decide

set_option maxHeartbeats 1600000 in
/-- C1: executing ADC A,B leaves (A+B+c) mod 256 in the accumulator
and sets Z = (A2 = 0), N = 0, H = ((A and 0xF)+(B and 0xF)+c) > 0xF,
C = (A+B+c) > 0xFF, where c is the incoming carry flag. -/
theorem adc_flags_correct (a f b0 c0 d0 e0 h0 l0 sp pc : Nat)
    (ime halted : Bool) (mem : CpuMem) (ha : a < 256) (hb : b0 < 256) :
    ∀ (cin : Nat) (out : CPU.ExecOut),
      cin = (if f &&& flagCarry ≠ 0 then 1 else 0) →
      out = CPU.execute ⟨⟨a, f, b0, c0, d0, e0, h0, l0⟩, sp, pc, ime, halted⟩
              mem (.ADC (.Register .B)) →
      out.cpu.registers.a = (a + b0 + cin) % 256 ∧
      (out.cpu.registers.f &&& flagZero ≠ 0 ↔ (a + b0 + cin) % 256 = 0) ∧
      out.cpu.registers.f &&& flagSubtract = 0 ∧
      (out.cpu.registers.f &&& flagHalfCarry ≠ 0 ↔
        0xF < (a &&& 0xF) + (b0 &&& 0xF) + cin) ∧
      (out.cpu.registers.f &&& flagCarry ≠ 0 ↔ 0xFF < a + b0 + cin) := by
  intro cin out hcin hout
  subst hcin hout
  simp only [CPU.execute, CPU.loadArithmeticOperand, Registers.read8]
  by_cases hC : f &&& flagCarry = 0 <;>
    simp [hC] <;>
    refine ⟨?_, ?_, ?_, ?_, ?_⟩ <;>
    ( try split_ifs) <;>
    simp_all [u8, flagZero, flagSubtract, flagHalfCarry, flagCarry] <;>
    (obtain ⟨e0, e1, e2, e3, e4, e5, e6, e7, e8, e9, e10, e11, e12, e13, e14, e15, e16, e17, e18, e19, e20, e21, e22, e23, e24, e25, e26, e27, e28, e29, e30, e31⟩ := flag_and_table
     have hcar : ((f &&& 16 != 0).toNat = 0 ∧ f &&& 16 = 0) ∨
         ((f &&& 16 != 0).toNat = 1 ∧ f &&& 16 ≠ 0) := by
       by_cases hq : f &&& 16 = 0 <;> simp [hq]
     omega)

/-- Witness for C1 at A = 200, B = 100, carry in (F = 0x10). -/
theorem adc_flags_correct_witness :
    (CPU.execute ⟨⟨200, 0x10, 100, 0, 0, 0, 0, 0⟩, 0xFFFE, 0x100, false,
        false⟩ memZero (.ADC (.Register .B))).cpu.registers.a
      = (200 + 100 + 1) % 256 ∧
    ((CPU.execute ⟨⟨200, 0x10, 100, 0, 0, 0, 0, 0⟩, 0xFFFE, 0x100, false,
        false⟩ memZero (.ADC (.Register .B))).cpu.registers.f &&& flagZero ≠ 0
      ↔ (200 + 100 + 1) % 256 = 0) ∧
    (CPU.execute ⟨⟨200, 0x10, 100, 0, 0, 0, 0, 0⟩, 0xFFFE, 0x100, false,
        false⟩ memZero (.ADC (.Register .B))).cpu.registers.f
        &&& flagSubtract = 0 ∧
    ((CPU.execute ⟨⟨200, 0x10, 100, 0, 0, 0, 0, 0⟩, 0xFFFE, 0x100, false,
        false⟩ memZero (.ADC (.Register .B))).cpu.registers.f
        &&& flagHalfCarry ≠ 0
      ↔ 0xF < (200 &&& 0xF) + (100 &&& 0xF) + 1) ∧
    ((CPU.execute ⟨⟨200, 0x10, 100, 0, 0, 0, 0, 0⟩, 0xFFFE, 0x100, false,
        false⟩ memZero (.ADC (.Register .B))).cpu.registers.f
        &&& flagCarry ≠ 0
      ↔ 0xFF < 200 + 100 + 1) :=
  adc_flags_correct 200 0x10 100 0 0 0 0 0 0xFFFE 0x100 false false memZero
    (by decide) (by decide) 1 _ (by decide) rfl

/-- The CPU state used in the C9 witness: SP = 0, PC = 0xFFFF. -/
def cpuSp0 : CPU := ⟨Registers.new, 0, 0xFFFF, false, false⟩

/-- C9: stack operations and PC arithmetic wrap modulo 2^16 and cannot
fault: a push wraps SP (SP = 0 and 1 included) and stores the two bytes
at the wrapped addresses, a pop wraps SP past 0xFFFF, and the PC
increment wraps past 0xFFFF to 0. -/
theorem sp_pc_wrap_no_abort (cpu : CPU) (mem : CpuMem) (v : Nat)
    (hsp : cpu.sp < 65536) :
    (CPU.push cpu mem v).1.sp = (cpu.sp + 65536 - 2) % 65536 ∧
    (CPU.push cpu mem v).1.sp < 65536 ∧
    (CPU.push cpu mem v).2 ((cpu.sp + 65536 - 2) % 65536) = v % 256 ∧
    (CPU.push cpu mem v).2 (((cpu.sp + 65536 - 2) % 65536 + 1) % 65536)
      = (v >>> 8) % 256 ∧
    (CPU.pop cpu mem).2.sp = (cpu.sp + 2) % 65536 ∧
    (CPU.pop cpu mem).2.sp < 65536 ∧
    (CPU.execute cpu mem .NOP).cpu.pc = (cpu.pc + 1) % 65536 := by
  refine ⟨?_, ?_, ?_, ?_, ?_, ?_, ?_⟩
  · simp [CPU.push, u16]
  · simp [CPU.push, u16]
    omega
  · simp only [CPU.push, CpuMem.write16, CpuMem.write8, u8, u16]
    split_ifs <;> omega
  · simp only [CPU.push, CpuMem.write16, CpuMem.write8, u8, u16]
    split_ifs <;> omega
  · simp [CPU.pop, u16]
  · simp [CPU.pop, u16]
    omega
  · simp [CPU.execute, u16]

/-- Witness for C9 at SP = 0 and PC = 0xFFFF. -/
theorem sp_pc_wrap_no_abort_witness :
    (CPU.push cpuSp0 memZero 0xABCD).1.sp = (cpuSp0.sp + 65536 - 2) % 65536 ∧
    (CPU.push cpuSp0 memZero 0xABCD).1.sp < 65536 ∧
    (CPU.push cpuSp0 memZero 0xABCD).2 ((cpuSp0.sp + 65536 - 2) % 65536)
      = 0xABCD % 256 ∧
    (CPU.push cpuSp0 memZero 0xABCD).2
        (((cpuSp0.sp + 65536 - 2) % 65536 + 1) % 65536)
      = (0xABCD >>> 8) % 256 ∧
    (CPU.pop cpuSp0 memZero).2.sp = (cpuSp0.sp + 2) % 65536 ∧
    (CPU.pop cpuSp0 memZero).2.sp < 65536 ∧
    (CPU.execute cpuSp0 memZero .NOP).cpu.pc = (cpuSp0.pc + 1) % 65536 :=
  sp_pc_wrap_no_abort cpuSp0 memZero 0xABCD (by decide)



/-! ## PPU object line painting (`src/game_boy/ppu.rs`) -/

/-- `MonochromePalette::as_array` (graphics_data.rs). -/
def MonochromePalette.as_array (palette : Nat) : List Nat :=
  [palette &&& 0b11, (palette >>> 2) &&& 0b11,
   (palette >>> 4) &&& 0b11, (palette >>> 6) &&& 0b11]

/-- `struct Sprite` (ppu.rs). -/
structure Sprite where
  y : Nat
  x : Nat
  tile_index : Nat
  attribute_flags : Nat
deriving Repr, DecidableEq

/-- `ObjAttributeFlags::palette`. -/
def ObjAttributeFlags.palette (flags : Nat) : Nat := (flags >>> 4) &&& 1

/-- `ObjAttributeFlags::x_flip`. -/
def ObjAttributeFlags.x_flip (flags : Nat) : Bool := flags &&& 0x20 != 0

/-- `ObjAttributeFlags::y_flip`. -/
def ObjAttributeFlags.y_flip (flags : Nat) : Bool := flags &&& 0x40 != 0

/-- `ObjAttributeFlags::bg_and_window_over_obj`: attribute bit 7. The
accessor is defined in ppu.rs but never called by any painting code. -/
def ObjAttributeFlags.bg_and_window_over_obj (flags : Nat) : Bool :=
  flags &&& 0x80 != 0

/-- `fetch_obj_tile_line` (ppu.rs). -/
def fetch_obj_tile_line (bus : MemoryBus) (tile in_tile_y : Nat)
    (double_sized : Bool) : Option Nat :=
  let p := if double_sized then
      if in_tile_y < 8 then (tile &&& 0xFE, in_tile_y)
      else (tile ||| 1, in_tile_y - 8)
    else (tile, in_tile_y)
  MemoryBus.read16 bus (0x8000 + 16 * p.1 + 2 * p.2)

/-- The 2-bit palette index the obj inner loop computes for loop index
`i`: `let i = if x_flip { 7 - i } else { i };
let p = ((tile >> (i + 7)) & 0b10) | ((tile >> i) & 1)`. -/
def spritePixelIndex (tile : Nat) (xflip : Bool) (i : Nat) : Nat :=
  let i := if xflip then 7 - i else i
  ((tile >>> (i + 7)) &&& 2) ||| ((tile >>> i) &&& 1)

/-- One iteration of the obj inner loop: `let x = (x - 1 - i); ...;
if p > 0 { pixels[x] = palette[p as usize]; }`. -/
def paintStep (xflip : Bool) (tile x : Nat) (palette : List Nat)
    (pixels : List Nat) (i : Nat) : List Nat :=
  let xi := x - 1 - i
  let p := spritePixelIndex tile xflip i
  if 0 < p then pixels.set xi (palette.getD p 0) else pixels

/-- The per-sprite body of `PPU::paint_obj_line`: fetch the (possibly
y-flipped) tile line, then run the inner pixel loop over
`i_min..i_max`. -/
def paintSprite (bus : MemoryBus) (obj_height : Nat)
    (palettes : List (List Nat)) (pixels : List Nat) (sprite : Sprite) :
    Option (List Nat) :=
  let attributes := sprite.attribute_flags
  let y := if ObjAttributeFlags.y_flip attributes
    then obj_height - 1 - sprite.y else sprite.y
  (fetch_obj_tile_line bus sprite.tile_index y (obj_height == 16)).map
    fun tile =>
      let palette := palettes.getD (ObjAttributeFlags.palette attributes) []
      let x := sprite.x
      let i_min := if 160 < x then x - 160 else 0
      let i_max := min x 8
      (List.range' i_min (i_max - i_min)).foldl
        (paintStep (ObjAttributeFlags.x_flip attributes) tile x palette)
        pixels

/-- The OAM scan of `PPU::paint_obj_line`: walk the 40 OAM entries,
keep the sprites covering line `ly` (at most 10). -/
def collectSprites (bus : MemoryBus) (ly obj_height : Nat) :
    Option (List Sprite) :=
  (List.range 40).foldlM
    (fun sprites k =>
      if sprites.length = 10 then some sprites
      else
        let address := 0xFE00 + 4 * k
        (bus.read8 address).bind fun y =>
        if u8 (ly + 16) < y ∨ u8 (y + obj_height) ≤ u8 (ly + 16) then
          some sprites
        else
          (bus.read8 (address + 1)).bind fun x =>
          (bus.read8 (address + 2)).bind fun tile_index =>
          (bus.read8 (address + 3)).map fun attribute_flags =>
          sprites ++ [⟨u8sub (u8 (ly + 16)) y, x, tile_index,
                       attribute_flags⟩])
    []

/-- Stable insertion of a sprite after all entries whose `x` is ≤ its
own. -/
def insertByX (s : Sprite) : List Sprite → List Sprite
  | [] => [s]
  | t :: ts => if t.x ≤ s.x then t :: insertByX s ts else s :: t :: ts

/-- `sprites.sort_by(|a, b| a.x().cmp(&b.x()))`: a stable sort by the
`x` field (insertion sort; a stable sort by a total key has a unique
result). -/
def sortByX (l : List Sprite) : List Sprite :=
  l.foldl (fun acc s => insertByX s acc) []

/-- `PPU::paint_obj_line` over one scanline buffer. -/
def paint_obj_line (bus : MemoryBus) (ly : Nat) (pixels : List Nat) :
    Option (List Nat) :=
  let lcdc := bus.memory.memory 0xFF40
  let obj_height := if lcdc &&& 4 = 0 then 8 else 16
  (collectSprites bus ly obj_height).bind fun sprites =>
    if sprites.isEmpty then some pixels
    else
      let palettes := [MonochromePalette.as_array (bus.memory.memory 0xFF48),
                       MonochromePalette.as_array (bus.memory.memory 0xFF49)]
      (sortByX sprites).foldlM (paintSprite bus obj_height palettes) pixels

theorem paintStep_length (xflip : Bool) (tile x : Nat) (palette : List Nat)
    (pixels : List Nat) (i : Nat) :
    (paintStep xflip tile x palette pixels i).length = pixels.length := by
  simp only [paintStep]
  split <;> simp

theorem paintStep_foldl_length (xflip : Bool) (tile x : Nat)
    (palette : List Nat) (L : List Nat) :
    ∀ pixels : List Nat,
      (L.foldl (paintStep xflip tile x palette) pixels).length
        = pixels.length := by
  induction L with
  | nil => intro pixels; rfl
  | cons i L ih =>
    intro pixels
    rw [List.foldl_cons, ih, paintStep_length]

/-- Pointwise characterisation of the obj inner loop: pixel `j` of the
painted line holds the sprite colour exactly when `j` is covered by the
loop range and the sprite's 2-bit palette index there is nonzero;
otherwise the underlying pixel is untouched. -/
theorem paintStep_fold_get (xflip : Bool) (tile x : Nat)
    (palette : List Nat) (n : Nat) :
    ∀ (s : Nat) (pixels : List Nat) (j : Nat), j < pixels.length →
      s + n ≤ x →
      ((List.range' s n).foldl (paintStep xflip tile x palette) pixels)[j]?
        = if s ≤ x - 1 - j ∧ x - 1 - j < s + n ∧ j < x ∧
             0 < spritePixelIndex tile xflip (x - 1 - j)
          then some (palette.getD (spritePixelIndex tile xflip (x - 1 - j)) 0)
          else pixels[j]? := by
  induction n with
  | zero =>
    intro s pixels j hj hsx
    rw [if_neg (by rintro ⟨h1, h2, -⟩; omega)]
    rfl
  | succ n ih =>
    intro s pixels j hj hsx
    rw [List.range'_succ, List.foldl_cons,
        ih (s + 1) (paintStep xflip tile x palette pixels s) j
          (by rw [paintStep_length]; exact hj) (by omega)]
    have hsx' : s < x := by omega
    by_cases hcase : j < x ∧ x - 1 - j = s
    · obtain ⟨hjx, hs⟩ := hcase
      have hxj : x - 1 - s = j := by omega
      rw [if_neg (by rintro ⟨h1, -⟩; omega)]
      simp only [paintStep]
      rw [hs]
      by_cases hp : 0 < spritePixelIndex tile xflip s
      · rw [if_pos hp, if_pos ⟨by omega, by omega, hjx, hp⟩, hxj,
            List.getElem?_set_self hj]
      · rw [if_neg hp, if_neg (by rintro ⟨-, -, -, h4⟩; exact hp h4)]
    · have hne : x - 1 - s ≠ j := by
        rcases Nat.lt_or_ge j x with hjx | hjx
        · have h1 : x - 1 - j ≠ s := fun h => hcase ⟨hjx, h⟩
          omega
        · omega
      have hpix : (paintStep xflip tile x palette pixels s)[j]?
          = pixels[j]? := by
        simp only [paintStep]
        split
        · exact List.getElem?_set_ne hne
        · rfl
      rw [hpix]
      by_cases hc2 : s ≤ x - 1 - j ∧ x - 1 - j < s + (n + 1) ∧ j < x ∧
          0 < spritePixelIndex tile xflip (x - 1 - j)
      · obtain ⟨h1, h2, h3, h4⟩ := hc2
        have hne2 : x - 1 - j ≠ s := fun h => hcase ⟨h3, h⟩
        rw [if_pos ⟨by omega, by omega, h3, h4⟩,
            if_pos ⟨h1, by omega, h3, h4⟩]
      · rw [if_neg
              (by rintro ⟨h1, h2, h3, h4⟩; exact hc2 ⟨by omega, by omega, h3, h4⟩),
            if_neg hc2]

/-- Attribute bit 6 (y flip) is unaffected by setting bit 7. -/
theorem y_flip_or128 (a : Nat) :
    ObjAttributeFlags.y_flip (a ||| 0x80) = ObjAttributeFlags.y_flip a := by
  unfold ObjAttributeFlags.y_flip
  have h1 : (0x80 : Nat) &&& 0x40 = 0 := by decide
  rw [Nat.and_distrib_right, h1, Nat.or_zero]

/-- Attribute bit 5 (x flip) is unaffected by setting bit 7. -/
theorem x_flip_or128 (a : Nat) :
    ObjAttributeFlags.x_flip (a ||| 0x80) = ObjAttributeFlags.x_flip a := by
  unfold ObjAttributeFlags.x_flip
  have h1 : (0x80 : Nat) &&& 0x20 = 0 := by decide
  rw [Nat.and_distrib_right, h1, Nat.or_zero]

/-- Attribute bit 4 (palette select) is unaffected by setting bit 7. -/
theorem palette_or128 (a : Nat) :
    ObjAttributeFlags.palette (a ||| 0x80) = ObjAttributeFlags.palette a := by
  unfold ObjAttributeFlags.palette
  apply Nat.eq_of_testBit_eq
  intro i
  simp only [Nat.testBit_and, Nat.testBit_shiftRight, Nat.testBit_or]
  rcases i with _ | i
  · rw [show (0x80 : Nat).testBit (4 + 0) = false by decide]
    simp
  · rw [show (1 : Nat).testBit (i + 1) = false from
      Nat.testBit_eq_false_of_lt (Nat.one_lt_two_pow (by omega))]
    simp

/-- A memory whose OAM holds one sprite at (y=16, x=8), tile 0,
attributes 0x80 (bg priority set), with obj palette 0 = [0,1,2,3] and
tile 0 line 0 = 0x00FF; LCDC 0x83 (LCD, bg and obj on, 8x8 objs). -/
def memObjPriority : GBMemory :=
  ((((((memFresh.setMem 0xFF40 0x83).setMem 0xFE00 16).setMem 0xFE01
    8).setMem 0xFE02 0).setMem 0xFE03 0x80).setMem 0xFF48 0xE4).setMem
    0x8000 0xFF

/-- The bus over `memObjPriority`, no DMA active. -/
def busObjPriority : MemoryBus :=
  { memory := memObjPriority, dmaTransfer := none }

/-- C6 counterexample: rendering obj line 0 over a background line of
colour 2, the selected sprite has attribute bit 7
(`bg_and_window_over_obj`) set, yet its pixels still overwrite the
background (pixel 7 becomes sprite colour 1): the priority attribute is
never applied. -/
theorem obj_bg_priority_not_applied :
    ObjAttributeFlags.bg_and_window_over_obj 0x80 = true ∧
    (paint_obj_line busObjPriority 0 (List.replicate 160 2)).map
        (fun px => px[7]?) = some (some 1) :=
  ⟨rfl, rfl⟩

/-- C6: for each sprite the obj painting loop processes, a sprite pixel
overwrites the underlying background pixel exactly when the sprite's
2-bit palette index for that pixel is nonzero (pointwise
characterisation, first conjunct); the background-priority attribute
(bit 7) however is never applied: forcing it set leaves the painted
line unchanged (second conjunct). -/
theorem obj_overwrite_iff_nonzero_and_bg_priority_ignored
    (bus : MemoryBus) (obj_height : Nat) (palettes : List (List Nat))
    (pixels : List Nat) (s : Sprite) (tile j : Nat)
    (hj : j < pixels.length)
    (hfetch : fetch_obj_tile_line bus s.tile_index
        (if ObjAttributeFlags.y_flip s.attribute_flags
         then obj_height - 1 - s.y else s.y)
        (obj_height == 16) = some tile) :
    (∃ out, paintSprite bus obj_height palettes pixels s = some out ∧
      out.length = pixels.length ∧
      out[j]? =
        if (if 160 < s.x then s.x - 160 else 0) ≤ s.x - 1 - j ∧
           s.x - 1 - j < min s.x 8 ∧ j < s.x ∧
           0 < spritePixelIndex tile
                 (ObjAttributeFlags.x_flip s.attribute_flags) (s.x - 1 - j)
        then some ((palettes.getD
               (ObjAttributeFlags.palette s.attribute_flags) []).getD
             (spritePixelIndex tile
               (ObjAttributeFlags.x_flip s.attribute_flags) (s.x - 1 - j)) 0)
        else pixels[j]?) ∧
    paintSprite bus obj_height palettes pixels
        { s with attribute_flags := s.attribute_flags ||| 0x80 }
      = paintSprite bus obj_height palettes pixels s := by
  constructor
  · have hbound : (if 160 < s.x then s.x - 160 else 0) +
        (min s.x 8 - (if 160 < s.x then s.x - 160 else 0)) ≤ s.x := by
      split <;> omega
    refine ⟨(List.range' (if 160 < s.x then s.x - 160 else 0)
        (min s.x 8 - (if 160 < s.x then s.x - 160 else 0))).foldl
        (paintStep (ObjAttributeFlags.x_flip s.attribute_flags) tile s.x
          (palettes.getD (ObjAttributeFlags.palette s.attribute_flags) []))
        pixels, ?_, paintStep_foldl_length _ _ _ _ _ pixels, ?_⟩
    · simp only [paintSprite]
      rw [hfetch]
      rfl
    · rw [paintStep_fold_get (ObjAttributeFlags.x_flip s.attribute_flags)
          tile s.x
          (palettes.getD (ObjAttributeFlags.palette s.attribute_flags) [])
          (min s.x 8 - (if 160 < s.x then s.x - 160 else 0))
          (if 160 < s.x then s.x - 160 else 0) pixels j hj hbound]
      refine if_congr ?_ rfl rfl
      by_cases h160 : 160 < s.x
      · simp only [if_pos h160]
        constructor <;> rintro ⟨h1, h2, h3, h4⟩ <;>
          exact ⟨h1, by omega, h3, h4⟩
      · simp only [if_neg h160]
        constructor <;> rintro ⟨h1, h2, h3, h4⟩ <;>
          exact ⟨h1, by omega, h3, h4⟩
  · simp only [paintSprite, y_flip_or128, x_flip_or128, palette_or128]

/-- Witness for C6 at the sprite (y=0, x=8, tile 0, attributes 0x80)
with tile line 0x00FF over a background line of colour 2, at pixel 7. -/
theorem obj_overwrite_iff_nonzero_witness :
    (7 < (List.replicate 160 (2 : Nat)).length ∧
     fetch_obj_tile_line busObjPriority 0 0 (8 == 16) = some 0xFF) ∧
    ((∃ out, paintSprite busObjPriority 8 [[0, 1, 2, 3], [0, 0, 0, 0]]
          (List.replicate 160 2) ⟨0, 8, 0, 0x80⟩ = some out ∧
       out.length = (List.replicate 160 (2 : Nat)).length ∧
       out[7]? =
         if (if (160 : Nat) < 8 then 8 - 160 else 0) ≤ 8 - 1 - 7 ∧
            (8 : Nat) - 1 - 7 < min 8 8 ∧ (7 : Nat) < 8 ∧
            0 < spritePixelIndex 0xFF (ObjAttributeFlags.x_flip 0x80)
                  (8 - 1 - 7)
         then some (([[0, 1, 2, 3], [0, 0, 0, 0]].getD
                (ObjAttributeFlags.palette 0x80) []).getD
              (spritePixelIndex 0xFF (ObjAttributeFlags.x_flip 0x80)
                (8 - 1 - 7)) 0)
         else (List.replicate 160 (2 : Nat))[7]?) ∧
     paintSprite busObjPriority 8 [[0, 1, 2, 3], [0, 0, 0, 0]]
         (List.replicate 160 2)
         ⟨0, 8, 0, 0x80 ||| 0x80⟩
       = paintSprite busObjPriority 8 [[0, 1, 2, 3], [0, 0, 0, 0]]
         (List.replicate 160 2) ⟨0, 8, 0, 0x80⟩) :=
  ⟨⟨by decide, rfl⟩,
   obj_overwrite_iff_nonzero_and_bg_priority_ignored busObjPriority 8
     [[0, 1, 2, 3], [0, 0, 0, 0]] (List.replicate 160 2) ⟨0, 8, 0, 0x80⟩
     0xFF 7 (by decide) rfl⟩

end GB
